import Mathlib

/-!
Verification development for the RVK-PICA Classifier AI repository
(`config_validator.py`, `rvk_hierarchical_combinations.py`, `main_app.py`).

The Python sources are shallowly embedded below.  Remote HTTP calls to the
RVK API are modelled by an explicit oracle record (`RvkApi`): each oracle
function returns `none` to model a failed / non-ok / unparsable response and
`some data` to model a successful response body.  Python `float` arithmetic
on the small decimal constants of the scoring code is modelled exactly by
`ℚ`; Python `int()` truncation is modelled by `pyInt`.  Python dicts that
carry optional keys are modelled by records with `Option` fields.
-/

set_option maxRecDepth 20000

attribute [local semireducible] Rat.add Rat.mul Rat.sub Rat.inv

/-! ## Basic string helpers (Python `str` operations) -/

/-- Python `str.lower()` restricted to the characters that occur in this
program: ASCII letters and the German letters Ä/Ö/Ü. -/
def lowerCh (c : Char) : Char :=
  if c = 'Ä' then 'ä' else if c = 'Ö' then 'ö' else if c = 'Ü' then 'ü' else c.toLower

/-- Python `str.upper()` restricted likewise. -/
def upperCh (c : Char) : Char :=
  if c = 'ä' then 'Ä' else if c = 'ö' then 'Ö' else if c = 'ü' then 'Ü' else c.toUpper

def strLower (s : String) : String := String.mk (s.data.map lowerCh)

def strUpper (s : String) : String := String.mk (s.data.map upperCh)

/-- Membership of `needle` as a contiguous run inside a character list,
mirroring Python `needle in haystack`. -/
def infixB (needle : List Char) : List Char → Bool
  | [] => needle.isEmpty
  | c :: rest => needle.isPrefixOf (c :: rest) || infixB needle rest

/-- Python `needle in haystack` on strings. -/
def containsStr (haystack needle : String) : Bool := infixB needle.data haystack.data

/-- Python `str.strip()` (whitespace at both ends). -/
def stripChars (l : List Char) : List Char :=
  ((l.dropWhile Char.isWhitespace).reverse.dropWhile Char.isWhitespace).reverse

def stripStr (s : String) : String := String.mk (stripChars s.data)

/-- Python `str.split()` (split on whitespace runs, no empty tokens). -/
def splitWsAux : List Char → List Char → List (List Char)
  | [], cur => if cur.isEmpty then [] else [cur.reverse]
  | c :: t, cur =>
    if c.isWhitespace then
      if cur.isEmpty then splitWsAux t [] else cur.reverse :: splitWsAux t []
    else splitWsAux t (c :: cur)

def splitWsStr (s : String) : List String :=
  (splitWsAux s.data []).map String.mk

/-- Python `' '.join(parts)` and friends. -/
def strJoin (sep : String) : List String → String
  | [] => ""
  | [x] => x
  | x :: y :: t => x ++ sep ++ strJoin sep (y :: t)

/-- Python `combination.split(' + ')`: split on the literal three-character
separator, leftmost-first and non-overlapping. -/
def splitPlusAux : List Char → List Char → List (List Char)
  | [], cur => [cur.reverse]
  | ' ' :: '+' :: ' ' :: rest, cur => cur.reverse :: splitPlusAux rest []
  | c :: t, cur => splitPlusAux t (c :: cur)

def splitPlusStr (s : String) : List String := (splitPlusAux s.data []).map String.mk

/-- Word tokens of Python `re.findall(r'\b\w+\b', s)` for the character set
used in this program: maximal runs of alphanumeric / underscore / German
letters. -/
def isWordCh (c : Char) : Bool :=
  c.isAlphanum || c = '_' || c ∈ ['ä', 'ö', 'ü', 'ß', 'Ä', 'Ö', 'Ü']

def wordTokensAux : List Char → List Char → List (List Char)
  | [], cur => if cur.isEmpty then [] else [cur.reverse]
  | c :: t, cur =>
    if isWordCh c then wordTokensAux t (c :: cur)
    else if cur.isEmpty then wordTokensAux t [] else cur.reverse :: wordTokensAux t []

def wordTokens (s : String) : List String := (wordTokensAux s.data []).map String.mk

/-- Python `int()` on an exact rational (truncation toward zero). -/
def pyInt (q : ℚ) : ℤ := if q < 0 then -(Rat.floor (-q)) else Rat.floor q

theorem pyInt_eq_floor_of_nonneg (q : ℚ) (h : 0 ≤ q) : pyInt q = ⌊q⌋ := by
  have : ¬ q < 0 := not_lt.mpr h
  simp [pyInt, this, Int.floor]
  rfl

/-! ## `calculate_relevance_for_description` (config_validator.py 216-264) -/

/-- The `semantic_equivalents` table of
`calculate_relevance_for_description`, in source order. -/
def semanticEquivalents : List (String × List String) :=
  [("migration", ["zuwanderung", "einwanderung", "auswanderung", "flucht", "vertreibung", "migrationsforschung", "bevölkerungsbewegung"]),
   ("integration", ["soziale integration", "eingliederung", "inkulturation", "integrationsprozesse", "assimilation"]),
   ("interkulturell", ["kulturtransfer", "interkulturalität", "multikulturell", "interkulturelle beziehungen", "kulturkontakt"]),
   ("stadtforschung", ["urbanistik", "stadtentwicklung", "kommunal", "lokal", "stadtsoziologie", "urban"]),
   ("soziologie", ["gesellschaftswissenschaften", "sozialwissenschaften", "gesellschaft"]),
   ("gesellschaftlicher wandel", ["sozialer wandel", "soziokulturell", "demographischer wandel", "transformation"]),
   ("informatik", ["computer", "software", "algorithmus", "digital", "technologie", "it"]),
   ("medizin", ["gesundheit", "klinik", "diagnose", "therapie", "healthcare", "medical"]),
   ("bildung", ["erziehung", "pädagogik", "schule", "universität", "ausbildung", "lernen"]),
   ("recht", ["gesetz", "juridisch", "legal", "justiz", "rechtswissenschaft"]),
   ("wirtschaft", ["ökonomie", "management", "finanzen", "betrieb", "unternehmen"]),
   ("geschichte", ["historisch", "vergangenheit", "zeitgeschichte", "historie"]),
   ("kunst", ["ästhetik", "künstlerisch", "kreativ", "design", "kultur"]),
   ("musik", ["musikwissenschaft", "musikalisch", "komposition", "audio"]),
   ("literatur", ["schrift", "text", "roman", "gedicht", "literarisch"]),
   ("philosophie", ["denken", "ethik", "metaphysik", "erkenntnistheorie"]),
   ("psychologie", ["verhalten", "kognition", "entwicklung", "persönlichkeit"]),
   ("politik", ["staat", "regierung", "demokratie", "verwaltung", "politisch"]),
   ("naturwissenschaft", ["physik", "chemie", "biologie", "wissenschaft", "forschung"]),
   ("mathematik", ["zahlen", "statistik", "algebra", "geometrie", "rechnen"])]

/-- Score contribution of one keyword (`for keyword in keywords` loop body). -/
def keywordScore (descriptionLower : String) (keyword : String) : ℕ :=
  let kl := stripStr (strLower keyword)
  let base := if containsStr descriptionLower kl then 40 else 0
  let sem :=
    match semanticEquivalents.lookup kl with
    | some eqs => (eqs.filter (fun e => containsStr descriptionLower e)).length * 20
    | none => 0
  base + sem

/-- `calculate_relevance_for_description(keywords, description)`. -/
def calculateRelevanceForDescription (keywords : List String) (description : String) : ℕ :=
  if description = "" then 10
  else
    let descriptionLower := stripStr (strLower description)
    let score := (keywords.map (keywordScore descriptionLower)).sum
    let docWords := (wordTokens (strLower (strJoin " " keywords))).dedup
    let descWords := (wordTokens descriptionLower).dedup
    let overlapCount := (docWords.filter (fun w => descWords.contains w)).length
    let score := score + min 30 (overlapCount * 5)
    min 100 (max score 10)

example : calculateRelevanceForDescription ["migration"] "Migration, Bevölkerungsbewegung" = 65 := by decide

/-- C9: `calculate_relevance_for_description` returns a value in [10,100] for
every list of query terms and every label, returns exactly 10 when the label
is the empty string, and returns exactly 10 for the empty term list
regardless of the label. -/
theorem calculateRelevance_range_and_floor :
    (∀ keywords description,
        10 ≤ calculateRelevanceForDescription keywords description ∧
        calculateRelevanceForDescription keywords description ≤ 100) ∧
    (∀ keywords, calculateRelevanceForDescription keywords "" = 10) ∧
    (∀ description, calculateRelevanceForDescription [] description = 10) := by
  refine ⟨fun keywords description => ?_, fun keywords => ?_, fun description => ?_⟩
  · unfold calculateRelevanceForDescription
    by_cases h : description = ""
    · simp [h]
    · simp [h]
  · simp [calculateRelevanceForDescription]
  · unfold calculateRelevanceForDescription
    by_cases h : description = "" <;> simp [h, wordTokens, wordTokensAux, strJoin, strLower]

/-! ## Static tables of rvk_hierarchical_combinations.py -/

structure HauptgruppeData where
  keywords : List String
  description : String
  untergruppen : List (String × String)
  feingruppenExamples : List (String × String)
deriving DecidableEq, Repr

/-- `HAUPTGRUPPE_MAPPING`, in source (insertion) order. -/
def hauptgruppeMapping : List (String × HauptgruppeData) :=
  [("A", ⟨["bibliographie", "nachschlagewerk", "wissenschaftskunde", "hochschule", "buch", "medien", "kommunikation", "umwelt"],
     "General, Bibliographies, Reference Works",
     [("AA", "Bibliographies - General"), ("AB", "Bibliographies - Subject Bibliographies"),
      ("AC", "Reference Works - General"), ("AD", "Science Studies"),
      ("AL", "Higher Education"), ("AN", "Book and Library Science"),
      ("AP", "Media and Communication Science"), ("AR", "Environmental Sciences")], []⟩),
   ("B", ⟨["theologie", "religion", "gott", "kirche", "glaube", "christentum", "islam", "judentum"],
     "Theology and Religious Studies",
     [("BA", "Theology - General"), ("BB", "Biblical Theology"), ("BC", "Church History"),
      ("BD", "Systematic Theology"), ("BE", "Practical Theology"), ("BH", "Christian Denominations"),
      ("BL", "Non-Christian Religions")], []⟩),
   ("C", ⟨["philosophie", "denken", "ethik", "psychologie", "verhalten", "bewusstsein"],
     "Philosophy and Psychology",
     [("CA", "Philosophy - General"), ("CB", "Logic and Epistemology"), ("CC", "Metaphysics"),
      ("CD", "Philosophical Anthropology"), ("CE", "Ethics"), ("CL", "Psychology - General"),
      ("CM", "Developmental Psychology"), ("CP", "Applied Psychology")], []⟩),
   ("D", ⟨["pädagogik", "erziehung", "bildung", "schule", "lernen", "didaktik"],
     "Education",
     [("DA", "Education - General"), ("DB", "Educational Philosophy"), ("DC", "History of Education"),
      ("DD", "Educational Sociology"), ("DF", "School Education"), ("DK", "Adult Education")], []⟩),
   ("G", ⟨["deutsch", "germanistik", "niederländisch", "skandinavisch", "literatur"],
     "German Studies, Dutch Philology, Scandinavian Studies",
     [("GA", "German Studies - General"), ("GB", "German Linguistics"),
      ("GE", "German Literary History"), ("GI", "German Authors"),
      ("GL", "Dutch Philology"), ("GN", "Scandinavian Philology")],
     [("GE 4001", "German Literature Medieval Period"),
      ("GE 5000", "German Literature 16th-18th Century"),
      ("GB 1729", "German Linguistics Dialectology")]⟩),
   ("L", ⟨["kultur", "ethnologie", "archäologie", "kunst", "musik", "bildung"],
     "Cultural Studies",
     [("LA", "Ethnology"), ("LB", "Education and Learning"), ("LC", "Cultural Science"),
      ("LD", "Classical Archaeology"), ("LH", "Art History"), ("LI", "Islamic Art"),
      ("LJ", "East Asian Art"), ("LK", "American Art"), ("LP", "Musicology")],
     [("LB 56000", "Higher Education System"), ("LB 34000", "Education System Germany"),
      ("LD 1100", "Archaeological Methods"), ("LH 65000", "Art History Germany"),
      ("LP 90000", "Music History")]⟩),
   ("M", ⟨["politik", "soziologie", "gesellschaft", "migration", "integration", "sozial", "militär"],
     "Political Science, Sociology, Military Science",
     [("MA", "Political Science - General"), ("MB", "Political Science - State Theory"),
      ("MC", "Political Science - Political Systems"), ("MD", "Political Science - Political Ideologies"),
      ("ME", "Political Science - Foreign Policy"), ("MF", "Political Science - Domestic Policy"),
      ("MG", "Political Science - Parties"), ("MH", "Political Science - Elections"),
      ("MI", "Political Science - Administration"), ("MN", "Sociology - General"),
      ("MQ", "Sociology - Special Sociologies"), ("MR", "Sociology - Demographics"),
      ("MS", "Sociology - Social Structure"), ("MX", "Military Science")],
     [("MN 1000", "Sociology General"), ("MN 8300", "Migration, Population Movement"),
      ("MS 1200", "Social Structure Germany"), ("MQ 3200", "Urban Sociology"),
      ("MA 1000", "Political Science General")]⟩),
   ("N", ⟨["geschichte", "historisch", "vergangenheit", "zeitgeschichte"],
     "History",
     [("NB", "History - Auxiliary Sciences"), ("NC", "History - General"),
      ("ND", "Prehistoric Archaeology"), ("NF", "Ancient History"), ("NH", "Medieval History"),
      ("NK", "Modern History"), ("NP", "European History"), ("NQ", "German History"),
      ("NR", "German Regional History"), ("NS", "German Local History"),
      ("NT", "Austrian History"), ("NU", "Swiss History"),
      ("NV", "French History"), ("NW", "British History"),
      ("NX", "Russian History"), ("NY", "American History"),
      ("NZ", "African, Asian, Oceanian History")],
     [("NQ 1000", "German History General"), ("NQ 6100", "Germany 1945-1990"),
      ("NR 6050", "Saxony History"), ("NP 1000", "European History General")]⟩),
   ("P", ⟨["recht", "gesetz", "juridisch", "legal", "rechtswissenschaft", "justiz"],
     "Legal Studies",
     [("PA", "Legal Studies - General"), ("PB", "Legal Philosophy"),
      ("PC", "Legal History"), ("PD", "Civil Law"), ("PE", "Commercial Law"),
      ("PF", "Labor Law"), ("PG", "Administrative Law"), ("PH", "Constitutional Law"),
      ("PI", "Tax Law"), ("PJ", "Criminal Law"), ("PK", "Procedural Law")], []⟩),
   ("Q", ⟨["wirtschaft", "ökonomie", "management", "finanzen", "betrieb", "unternehmen"],
     "Economics",
     [("QA", "Economics - General"), ("QB", "Economic Theory"),
      ("QC", "Economic History"), ("QD", "Economic Policy"),
      ("QE", "Macroeconomics"), ("QH", "Business Administration"),
      ("QI", "Public Finance"), ("QK", "Banking"), ("QL", "Money and Credit"),
      ("QP", "Enterprises"), ("QR", "Trade")], []⟩),
   ("S", ⟨["mathematik", "statistik", "informatik", "computer", "algorithmus", "software"],
     "Mathematics and Computer Science",
     [("SA", "Mathematics - General"), ("SB", "Algebra"), ("SC", "Geometry"),
      ("SD", "Analysis"), ("SE", "Probability Theory"), ("SF", "Statistics"),
      ("SG", "Numerical Mathematics"), ("SH", "Applied Mathematics"),
      ("SI", "Computer Science - General"), ("SK", "Theoretical Computer Science"),
      ("SM", "Data Processing"), ("SN", "Programming"), ("SO", "Operating Systems"),
      ("SP", "Applied Computer Science"), ("SQ", "Computer Graphics"),
      ("SR", "Artificial Intelligence"), ("SS", "Software Engineering"), ("ST", "Computer Science - Applications")], []⟩),
   ("V", ⟨["chemie", "pharmazie", "molekül", "reaktion", "stoffkunde", "arzneimittel"],
     "Chemistry and Pharmacy",
     [("VA", "Chemistry - General"), ("VB", "Theoretical Chemistry"), ("VC", "Inorganic Chemistry"),
      ("VD", "Organic Chemistry"), ("VE", "Physical Chemistry"), ("VF", "Analytical Chemistry"),
      ("VG", "Biochemistry"), ("VH", "Technical Chemistry"), ("VI", "Pharmacy - General"),
      ("VJ", "Pharmaceutical Chemistry"), ("VK", "Pharmacology"), ("VL", "Toxicology")], []⟩),
   ("W", ⟨["biologie", "botanik", "zoologie", "genetik", "ökologie", "evolution", "medizin"],
     "Biology and Pre-Clinical Medicine",
     [("WA", "Biology - General"), ("WB", "Systematic Biology"), ("WC", "Botany"),
      ("WD", "Zoology"), ("WE", "Anthropology"), ("WF", "Genetics"), ("WG", "Ecology"),
      ("WH", "Developmental Biology"), ("WI", "Molecular Biology"), ("WJ", "Microbiology"),
      ("WK", "Anatomy"), ("WL", "Physiology"), ("WM", "Pathology")], []⟩),
   ("Y", ⟨["medizin", "klinisch", "diagnose", "therapie", "chirurgie", "innere medizin"],
     "Clinical Medicine",
     [("YA", "Clinical Medicine - General"), ("YB", "Internal Medicine"), ("YC", "Surgery"),
      ("YD", "Gynecology"), ("YE", "Pediatrics"), ("YF", "Dermatology"),
      ("YG", "Psychiatry"), ("YH", "Neurology"), ("YI", "Radiology"), ("YJ", "Anesthesiology")], []⟩),
   ("Z", ⟨["land", "forst", "garten", "fischerei", "hauswirtschaft", "technik", "ingenieur", "sport"],
     "Agriculture, Forestry, Technology, Sports",
     [("ZA", "Agriculture and Forestry - General"), ("ZB", "Plant Cultivation"),
      ("ZC", "Animal Breeding"), ("ZD", "Forestry"), ("ZE", "Horticulture"), ("ZF", "Fisheries"),
      ("ZG", "Technology - General"), ("ZH", "Mechanical Engineering"), ("ZI", "Electrical Engineering"),
      ("ZJ", "Civil Engineering"), ("ZK", "Transportation"), ("ZL", "Mining"), ("ZM", "Metallurgy"),
      ("ZN", "Chemical Technology"), ("ZO", "Process Engineering"), ("ZP", "Environmental Technology"),
      ("ZQ", "Energy Technology"), ("ZR", "Home Economics"), ("ZX", "Sports - General"),
      ("ZY", "Sports Categories")], []⟩)]

/-- `REGIONAL_INDICATORS`, in source (insertion) order. -/
def regionalIndicators : List (String × List String) :=
  [("deutschland", ["deutschland", "german", "bundesrepublik", "brd", "deutsche", "sachsen", "chemnitz", "dresden", "leipzig", "ostdeutschland", "bayern", "münchen", "nürnberg", "nrw", "nordrhein-westfalen", "köln", "düsseldorf", "dortmund", "essen", "baden-württemberg", "stuttgart", "karlsruhe", "mannheim", "hessen", "frankfurt", "wiesbaden", "kassel", "darmstadt", "niedersachsen", "hannover", "braunschweig", "göttingen"]),
   ("europa", ["europa", "european", "eu", "europäisch"]),
   ("usa", ["usa", "america", "vereinigte staaten", "amerikanisch", "new york", "kalifornien"]),
   ("großbritannien", ["großbritannien", "england", "britain", "british", "uk"]),
   ("frankreich", ["frankreich", "france", "französisch", "paris"]),
   ("italien", ["italien", "italy", "italienisch", "rom"]),
   ("spanien", ["spanien", "spain", "spanisch", "madrid"]),
   ("russland", ["russland", "russia", "russisch", "moskau"]),
   ("china", ["china", "chinese", "chinesisch", "beijing"]),
   ("japan", ["japan", "japanese", "japanisch", "tokyo"]),
   ("brasilien", ["brasilien", "brazil", "südamerika", "buenos aires", "argentinien"]),
   ("afrika", ["afrika", "african", "afrikanisch"]),
   ("asien", ["asien", "asian", "asiatisch"]),
   ("global", ["international", "global", "weltweit", "transnational"])]

/-- `FORM_INDICATORS`, in source order. -/
def formIndicators : List (String × List String) :=
  [("empirical study", ["empirie", "studie", "untersuchung", "befragung", "interview", "feldforschung"]),
   ("quantitative analysis", ["statistik", "quantitativ", "zahlen", "daten", "messung", "survey"]),
   ("qualitative research", ["qualitativ", "ethnographie", "fallstudie", "narrativ"]),
   ("theoretical work", ["theorie", "konzept", "modell", "framework", "ansatz"]),
   ("comparative study", ["vergleich", "komparativ", "international", "cross-cultural"]),
   ("handbook", ["handbuch", "lehrbuch", "einführung", "grundlagen"]),
   ("encyclopedia", ["lexikon", "wörterbuch", "enzyklopädie", "nachschlagewerk"]),
   ("bibliography", ["bibliographie", "literaturverzeichnis", "quellen"]),
   ("conference proceedings", ["kongress", "tagung", "konferenz", "symposium"]),
   ("journal", ["zeitschrift", "journal", "periodikum"]),
   ("dissertation", ["dissertation", "doktorarbeit", "promotion"]),
   ("collected volume", ["sammelband", "herausgeber", "beiträge", "aufsätze"])]

/-- `EPOCHEN_INDICATORS`, in source order. -/
def epochenIndicators : List (String × List String) :=
  [("antiquity", ["antike", "altertum", "römisch", "griechisch", "klassisch"]),
   ("medieval", ["mittelalter", "medieval", "mittelalterlich"]),
   ("early modern", ["frühe neuzeit", "renaissance", "16.", "17."]),
   ("18th century", ["18.", "1700", "aufklärung", "achtzehntes"]),
   ("19th century", ["19.", "1800", "1900", "neunzehntes"]),
   ("20th century", ["20.", "1900", "2000", "zwanzigstes"]),
   ("21st century", ["21.", "2000", "einundzwanzigstes", "modern", "zeitgenössisch"]),
   ("post 1945", ["nach 1945", "nachkriegszeit", "bundesrepublik"]),
   ("post 1989", ["nach 1989", "wiedervereinigung", "post-wende"]),
   ("gdr period", ["ddr", "deutsche demokratische republik", "1949-1989"]),
   ("weimar republic", ["weimarer republik", "1918-1933", "zwischenkriegszeit"]),
   ("third reich", ["drittes reich", "1933-1945", "nationalsozialismus"]),
   ("historical", ["geschichte", "historisch", "vergangenheit"]),
   ("contemporary", ["heute", "aktuell", "gegenwart", "contemporary"])]

/-! ## Content analysis record (the `ai_analysis` dict) -/

/-- The fields of the upstream content-analysis dict that the embedded code
reads.  `primaryKeyword` is an `Option` because the code reads it with two
different `dict.get` defaults; absent list keys are modelled by `[]`. -/
structure AiAnalysis where
  title : String := ""
  abstract : String := ""
  mainTopic : String := ""
  subjects : List String := []
  relatedGermanConcepts : List String := []
  primaryKeyword : Option String := none
  suggestedSearchTerms : List String := []
deriving DecidableEq, Repr

structure Combos where
  hauptgruppeContext : List String := []
  untergruppeContext : List String := []
  feingruppeContext : List String := []
  regionalSchluessel : List String := []
  formSchluessel : List String := []
  epochenSchluessel : List String := []
deriving DecidableEq, Repr

/-- Lexicographic comparison on code points, mirroring Python `sorted` on
strings. -/
def lexLeB : List Char → List Char → Bool
  | [], _ => true
  | _ :: _, [] => false
  | a :: as, b :: bs => if a < b then true else if b < a then false else lexLeB as bs

def strLeB (a b : String) : Bool := lexLeB a.data b.data

/-- Insert `x` behind every already-placed element `y` with `le y x`; for a
total preorder `le` this realises one step of a stable insertion sort. -/
def insertStable (le : α → α → Bool) (x : α) : List α → List α
  | [] => [x]
  | y :: t => if le y x then y :: insertStable le x t else x :: y :: t

/-- Stable ascending sort, mirroring Python `sorted` / `list.sort` (which are
stable); a descending Python sort (`reverse=True`) is the instance with the
flipped comparison. -/
def stableSortBy (le : α → α → Bool) (l : List α) : List α :=
  l.foldl (fun acc x => insertStable le x acc) []

theorem insertStable_perm (le : α → α → Bool) (x : α) (l : List α) :
    List.Perm (insertStable le x l) (x :: l) := by
  induction l with
  | nil => simp [insertStable]
  | cons y t ih =>
    by_cases h : le y x = true
    · simp only [insertStable, h, if_true]
      exact ((ih.cons y).trans (List.Perm.swap x y t))
    · simp only [insertStable, h, if_false]
      exact List.Perm.refl _

theorem stableSortBy_perm (le : α → α → Bool) (l : List α) :
    List.Perm (stableSortBy le l) l := by
  suffices h : ∀ acc : List α, List.Perm (l.foldl (fun acc x => insertStable le x acc) acc) (acc ++ l) by
    simpa using h []
  induction l with
  | nil => intro acc; simp
  | cons x t ih =>
    intro acc
    simp only [List.foldl_cons]
    refine (ih (insertStable le x acc)).trans ?_
    have h1 : List.Perm (insertStable le x acc) (x :: acc) := insertStable_perm le x acc
    refine (h1.append_right t).trans ?_
    have : List.Perm (x :: acc) (acc ++ [x]) := by
      simpa using (@List.perm_append_comm _ [x] acc)
    refine (this.append_right t).trans ?_
    simp

/-! ## `extract_rvk_hierarchical_combinations` (rvk_hierarchical_combinations.py 272-340) -/

def extractRvkHierarchicalCombinations (ai : AiAnalysis) : Combos :=
  let fullText := strLower (strJoin " "
    [ai.title, ai.abstract, ai.mainTopic, strJoin " " ai.subjects, strJoin " " ai.relatedGermanConcepts])
  let pk := strLower (ai.primaryKeyword.getD "")
  let triggered := hauptgruppeMapping.filter (fun g => g.2.keywords.any (fun kw => containsStr fullText kw))
  let hgContext := triggered.flatMap (fun g =>
    if pk ≠ "" then [pk ++ " + " ++ g.1 ++ " (" ++ g.2.description ++ ")"] else [])
  let ugContext := triggered.flatMap (fun g =>
    g.2.untergruppen.filterMap (fun u =>
      let ugKeywords := g.2.keywords ++ [(splitWsStr (strLower u.2)).headD ""]
      if ugKeywords.any (fun kw => containsStr fullText kw) then
        some (pk ++ " + " ++ u.1 ++ " (" ++ u.2 ++ ")")
      else none))
  let fgContext := triggered.flatMap (fun g =>
    g.2.feingruppenExamples.filterMap (fun f =>
      if (splitWsStr (strLower f.2)).any (fun kw => containsStr fullText kw) then
        some (pk ++ " + " ++ f.1 ++ " (" ++ f.2 ++ ")")
      else none))
  let foundRegions := (regionalIndicators.filter
    (fun r => r.2.any (fun ind => containsStr fullText ind))).map Prod.fst
  let sortedRegions := stableSortBy strLeB foundRegions
  let regionalKeys := sortedRegions.flatMap (fun region =>
    (if pk ≠ "" then [pk ++ " + " ++ region] else []) ++
    ai.subjects.filterMap (fun subject =>
      if strLower subject ≠ pk then some (strLower subject ++ " + " ++ region) else none))
  let formKeys := formIndicators.filterMap (fun f =>
    if f.2.any (fun ind => containsStr fullText ind) ∧ pk ≠ "" then some (pk ++ " + " ++ f.1)
    else none)
  let epochenKeys := epochenIndicators.filterMap (fun e =>
    if e.2.any (fun ind => containsStr fullText ind) ∧ pk ≠ "" then some (pk ++ " + " ++ e.1)
    else none)
  ⟨hgContext, ugContext, fgContext, regionalKeys, formKeys, epochenKeys⟩

/-! ## Phase-1 signal derivation (search_with_hierarchical_priority_logic, steps 1-2) -/

/-- Match of the regex `\+ ([A-Z]) ` at the head of a character list. -/
def capAtHead : List Char → Option Char
  | '+' :: ' ' :: d :: ' ' :: _ => if d.isUpper then some d else none
  | _ => none

/-- `re.search(r'\+ ([A-Z]) ', s)`: first position where the pattern matches. -/
def findCapAfterPlus : List Char → Option Char
  | [] => none
  | c :: t =>
    match capAtHead (c :: t) with
    | some d => some d
    | none => findCapAfterPlus t

/-- Step 1: the ordered, deduplicated `priority_hauptgruppen` list. -/
def priorityHauptgruppenOf (combos : Combos) : List String :=
  combos.hauptgruppeContext.foldl (fun acc comb =>
    if containsStr comb " + " then
      match findCapAfterPlus comb.data with
      | some d =>
        let hg := stripStr (String.mk [d])
        if hg ∈ acc then acc else acc ++ [hg]
      | none => acc
    else acc) []

/-- The bucket iteration order of `keyword_combinations.items()`. -/
def combosBuckets (combos : Combos) : List (List String) :=
  [combos.hauptgruppeContext, combos.untergruppeContext, combos.feingruppeContext,
   combos.regionalSchluessel, combos.formSchluessel, combos.epochenSchluessel]

/-- The `break`ing fallback loop over the buckets (lines 490-496). -/
def firstNonemptyFirstPart : List (List String) → String
  | [] => ""
  | bucket :: rest =>
    match bucket with
    | [] => firstNonemptyFirstPart rest
    | x :: _ =>
      let fp := (splitPlusStr x).headD ""
      if fp ≠ "" then fp else firstNonemptyFirstPart rest

/-- Step 2: `primary_keyword` and `regional_preferences_from_analysis`. -/
def phase1Signals (ai : AiAnalysis) (combos : Combos) : String × List String :=
  let st := combos.regionalSchluessel.foldl (fun (st : String × List String) comb =>
    if containsStr comb " + " then
      let parts := splitPlusStr comb
      (if st.1 = "" then parts.headD "" else st.1, st.2 ++ [parts.getD 1 ""])
    else st) ("", [])
  let pk := st.1
  let pk := if pk = "" then firstNonemptyFirstPart (combosBuckets combos) else pk
  let pk := if pk = "" then ai.primaryKeyword.getD "gesellschaft" else pk
  (pk, st.2)

/-- The content analysis of the C10 scenario. -/
def aiScenarioC10 : AiAnalysis :=
  { title := "Migration und Integration in Chemnitz", primaryKeyword := some "Migration" }

/-- C10: for an analysis whose lowercased text blob contains
"Migration und Integration in Chemnitz" and whose primaryKeyword is
"Migration", combination extraction followed by Phase-1 signal derivation
puts main group "M" into the priority main-group list and the canonical
region "deutschland" into the regional preferences. -/
theorem scenario_chemnitz_priority_and_region :
    "M" ∈ priorityHauptgruppenOf (extractRvkHierarchicalCombinations aiScenarioC10) ∧
    "deutschland" ∈ (phase1Signals aiScenarioC10 (extractRvkHierarchicalCombinations aiScenarioC10)).2 := by
  decide

/-! ## Hierarchy level and path (config_validator.py 266-338) -/

/-- Python `str.isalpha()` for the ASCII codes used in RVK codes. -/
def pyIsAlpha (s : String) : Bool := s ≠ "" && s.data.all Char.isAlpha

/-- Python `str.isdigit()` likewise. -/
def pyIsDigit (s : String) : Bool := s ≠ "" && s.data.all Char.isDigit

/-- `determine_rvk_hierarchy_level(notation)`. -/
def determineRvkHierarchyLevel (nt : String) : String :=
  match splitWsStr (stripStr nt) with
  | [p0] =>
    if p0.length = 1 ∧ pyIsAlpha p0 then "Hauptgruppe"
    else if p0.length = 2 ∧ pyIsAlpha p0 then "Untergruppe"
    else if p0.length > 2 then "Untergruppe"
    else "Unbekannt"
  | [letters, numbers] =>
    if pyIsAlpha letters ∧ pyIsDigit numbers then "Feingruppe" else "Unbekannt"
  | _ :: _ :: _ :: _ => "Feingruppe + Schlüssel"
  | [] => "Unbekannt"

example : determineRvkHierarchyLevel "M" = "Hauptgruppe" := by decide
example : determineRvkHierarchyLevel "MN" = "Untergruppe" := by decide
example : determineRvkHierarchyLevel "MN 8300" = "Feingruppe" := by decide

/-- One step of a resolved hierarchy path (`{'notation','benennung','level'}`). -/
structure PathStep where
  nota : String
  benennung : String
  level : ℕ
deriving DecidableEq, Repr

/-- The remote RVK API, as an oracle: `none` models a failed, non-ok or
unparsable response, `some` a parsed response body.  Response nodes are
(surface code, label) pairs, `""` standing for a missing XML attribute. -/
structure RvkApi where
  nodesSearch : String → Option (List (String × String))
  childrenSearch : String → Option (List (String × String))
  ancestorsSearch : String → Option (List (String × String))
  nodeValidate : String → Option (String × String)

/-- `get_hierarchical_path(notation)` (config_validator.py 266-302): ancestor
chain plus the validated node itself, stably sorted by token count. -/
def getHierarchicalPath (api : RvkApi) (nt : String) : List PathStep :=
  match api.ancestorsSearch nt with
  | none => []
  | some ancestors =>
    let path := ancestors.map (fun a => PathStep.mk a.1 a.2 (splitWsStr a.1).length)
    let path := path ++
      (match api.nodeValidate nt with
       | some v => [PathStep.mk v.1 v.2 (splitWsStr v.1).length]
       | none => [])
    stableSortBy (fun a b => a.level ≤ b.level) path

/-- `format_hierarchical_path(path)` (config_validator.py 304-316). -/
def formatHierarchicalPath (path : List PathStep) : String :=
  if path = [] then ""
  else
    strJoin " → " (path.filterMap (fun step =>
      if step.nota ≠ "" ∧ step.benennung ≠ "" then
        some (step.nota ++ " (" ++ step.benennung ++ ")")
      else none))

/-- The rendering that claim C7 describes (it is actually the rendering of
`format_hierarchical_display` in main_app.py): notation, level
classification, colon, label truncated to 67 characters with an ellipsis. -/
def formatPathClaimC7 (path : List PathStep) : String :=
  strJoin " → " (path.map (fun step =>
    let label :=
      if step.benennung.length > 67 then String.mk (step.benennung.data.take 67) ++ "..."
      else step.benennung
    step.nota ++ " (" ++ determineRvkHierarchyLevel step.nota ++ "): " ++ label))

def pathCounterC7 : List PathStep := [PathStep.mk "M" "Politikwissenschaft" 1]

/-- C7 counterexample: on a one-step path, `format_hierarchical_path` renders
"M (Politikwissenschaft)", not the claimed
"M (Hauptgruppe): Politikwissenschaft". -/
theorem formatHierarchicalPath_ne_claimC7 :
    formatHierarchicalPath pathCounterC7 ≠ formatPathClaimC7 pathCounterC7 ∧
    formatHierarchicalPath pathCounterC7 = "M (Politikwissenschaft)" := by
  constructor
  · decide
  · decide

/-- C7 amended: `format_hierarchical_path` renders every step whose notation
and label are both non-empty as "notation (label)" — with no level
classification and no truncation — joined by the arrow separator, and yields
the empty string for the empty path (steps with an empty notation or label
are skipped). -/
theorem formatHierarchicalPath_renders (path : List PathStep)
    (h : ∀ s ∈ path, s.nota ≠ "" ∧ s.benennung ≠ "") :
    formatHierarchicalPath path =
      strJoin " → " (path.map (fun s => s.nota ++ " (" ++ s.benennung ++ ")")) ∧
    formatHierarchicalPath [] = "" := by
  refine ⟨?_, by decide⟩
  have hmap : path.filterMap (fun step =>
      if step.nota ≠ "" ∧ step.benennung ≠ "" then
        some (step.nota ++ " (" ++ step.benennung ++ ")")
      else none) = path.map (fun s => s.nota ++ " (" ++ s.benennung ++ ")") := by
    induction path with
    | nil => rfl
    | cons s t ih =>
      have hs := h s (List.mem_cons_self s t)
      have hsome : (if s.nota ≠ "" ∧ s.benennung ≠ "" then
          some (s.nota ++ " (" ++ s.benennung ++ ")") else none) =
          some (s.nota ++ " (" ++ s.benennung ++ ")") := if_pos hs
      rw [List.filterMap_cons, hsome, List.map_cons,
        ih (fun x hx => h x (List.mem_cons_of_mem s hx))]
  cases path with
  | nil => rfl
  | cons s t =>
    simp only [formatHierarchicalPath, if_neg (List.cons_ne_nil s t)]
    rw [hmap]

def pathWitnessC7 : List PathStep :=
  [PathStep.mk "M" "Politikwissenschaft, Soziologie" 1, PathStep.mk "MN" "Soziologie" 1]

/-- C7 witness: the amended rendering theorem applied to a concrete path. -/
theorem formatHierarchicalPath_renders_witness :
    formatHierarchicalPath pathWitnessC7 =
      strJoin " → " (pathWitnessC7.map (fun s => s.nota ++ " (" ++ s.benennung ++ ")")) ∧
    formatHierarchicalPath [] = "" :=
  formatHierarchicalPath_renders pathWitnessC7 (by decide)

/-! ## Result dicts (`suggestions`) as a record -/

/-- A suggestion dict.  Keys that are present only in some of the producing
code paths are `Option`-valued (`none` = key absent); the remaining fields
are only ever written by the Phase-2 node search and default to the values
it assigns. -/
structure Cand where
  nota : String := ""
  benennung : String := ""
  relevance : ℤ := 0
  keyword : String := ""
  source : String := ""
  valid : Bool := false
  sourceVerified : Bool := false
  hierarchy : List String := []
  childNodes : List String := []
  rvkPrefixMatch : Bool := false
  combinationUsed : Option String := none
  combinationType : Option String := none
  searchStrategy : Option String := none
  reasoning : Option String := none
  priorityWeight : Option ℚ := none
  rvkHierarchyLevel : Option String := none
  hierarchicalPath : Option (List PathStep) := none
  pathDisplay : Option String := none
  hauptgruppeMatch : Option Bool := none
deriving DecidableEq, Repr, Inhabited

/-! ## `search_nodes_endpoint_and_validate` (config_validator.py 141-214) -/

/-- Lines 144-149: the cleaned notation-prefix list behind `prefix_regex`
(`none` = no regex was built; `re.escape` makes the regex a literal
alternation, so a match of `^(p1|p2|…)\S*` is exactly "some cleaned entry is
a literal prefix of the surface code"). -/
def cleanPrefixList (ps : Option (List String)) : Option (List String) :=
  match ps with
  | none => none
  | some l =>
    if l = [] then none
    else
      let cleaned := (l.filter (fun p => stripStr p ≠ "")).map (fun p => stripStr (strUpper p))
      if cleaned = [] then none else some cleaned

def matchesCleanList (cleaned : List String) (nt : String) : Bool :=
  cleaned.any (fun p => p.data.isPrefixOf nt.data)

/-- The suggestion dict built at lines 183-194. -/
def mkNodeSuggestion (term nt b : String) (pm : Bool) : Cand :=
  { nota := nt, benennung := b,
    relevance := (calculateRelevanceForDescription [term] b : ℤ),
    keyword := term, source := "RVK API (/nodes-Suche)",
    valid := true, sourceVerified := true,
    hierarchy := [], childNodes := [],
    rvkPrefixMatch := pm }

/-- The `suggestions` stream accumulated by the term loop (lines 151-201). -/
def rawNodeSuggestions (api : RvkApi) (searchTerms : List String)
    (ps : Option (List String)) : List Cand :=
  let cleaned := cleanPrefixList ps
  searchTerms.flatMap (fun term =>
    if stripStr term = "" then []
    else
      match api.nodesSearch term with
      | none => []
      | some nodes =>
        nodes.filterMap (fun nb =>
          if nb.1 = "" ∨ nb.2 = "" then none
          else
            match cleaned with
            | some cl =>
              if matchesCleanList cl nb.1 then some (mkNodeSuggestion term nb.1 nb.2 true)
              else none
            | none => some (mkNodeSuggestion term nb.1 nb.2 false)))

/-- The pairwise preference of the dedup loop (lines 203-212). -/
def mergePreferred (existing incoming : Cand) : Cand :=
  if incoming.rvkPrefixMatch ∧ ¬ existing.rvkPrefixMatch then incoming
  else if incoming.relevance > existing.relevance then incoming
  else existing

/-- One step of the dedup loop: Python dict insertion/overwrite keyed by the
surface code (overwriting keeps the key position). -/
def insertSuggestion (acc : List Cand) (s : Cand) : List Cand :=
  if acc.any (fun e => e.nota = s.nota) then
    acc.map (fun e => if e.nota = s.nota then mergePreferred e s else e)
  else acc ++ [s]

/-- `search_nodes_endpoint_and_validate(search_terms, rvk_notation_prefixes)`:
the `list(unique_suggestions.values())` result. -/
def searchNodesEndpointAndValidate (api : RvkApi) (searchTerms : List String)
    (ps : Option (List String)) : List Cand :=
  (rawNodeSuggestions api searchTerms ps).foldl insertSuggestion []

theorem mergePreferred_eq_or (e s : Cand) : mergePreferred e s = e ∨ mergePreferred e s = s := by
  unfold mergePreferred
  split_ifs <;> simp

theorem mergePreferred_nota (e s : Cand) (h : e.nota = s.nota) :
    (mergePreferred e s).nota = e.nota := by
  rcases mergePreferred_eq_or e s with hm | hm <;> rw [hm]
  exact h.symm

theorem mergePreferred_rel_ge (e s : Cand) (h : e.rvkPrefixMatch = s.rvkPrefixMatch) :
    e.relevance ≤ (mergePreferred e s).relevance ∧
    s.relevance ≤ (mergePreferred e s).relevance := by
  unfold mergePreferred
  have hflag : ¬ (s.rvkPrefixMatch = true ∧ ¬ e.rvkPrefixMatch = true) := by
    rw [h]; tauto
  rw [if_neg (by simpa using hflag)]
  by_cases hrel : s.relevance > e.relevance
  · rw [if_pos hrel]; omega
  · rw [if_neg hrel]; omega

theorem mem_insertSuggestion {acc : List Cand} {s c : Cand}
    (h : c ∈ insertSuggestion acc s) : c ∈ acc ∨ c = s := by
  unfold insertSuggestion at h
  by_cases hany : acc.any (fun e => e.nota = s.nota)
  · rw [if_pos hany] at h
    obtain ⟨e, he, hec⟩ := List.mem_map.mp h
    by_cases heq : e.nota = s.nota
    · rw [if_pos heq] at hec
      rcases mergePreferred_eq_or e s with hm | hm
      · left; rw [← hec, hm]; exact he
      · right; rw [← hec, hm]
    · rw [if_neg heq] at hec
      left; rw [← hec]; exact he
  · rw [if_neg hany] at h
    rcases List.mem_append.mp h with h1 | h1
    · left; exact h1
    · right; simpa using h1

theorem insertSuggestion_nodup (acc : List Cand) (s : Cand)
    (h : (acc.map Cand.nota).Nodup) : ((insertSuggestion acc s).map Cand.nota).Nodup := by
  unfold insertSuggestion
  by_cases hany : acc.any (fun e => e.nota = s.nota)
  · rw [if_pos hany]
    have hmap : (acc.map (fun e => if e.nota = s.nota then mergePreferred e s else e)).map Cand.nota
        = acc.map Cand.nota := by
      rw [List.map_map]
      refine List.map_congr_left (fun e _ => ?_)
      by_cases heq : e.nota = s.nota
      · simp only [Function.comp_apply, if_pos heq]
        exact mergePreferred_nota e s heq
      · simp only [Function.comp_apply, if_neg heq]
    rw [hmap]; exact h
  · rw [if_neg hany, List.map_append]
    have hnot : ∀ e ∈ acc, ¬ e.nota = s.nota := by
      intro e he
      by_contra hcon
      exact hany (List.any_eq_true.mpr ⟨e, he, by simpa using hcon⟩)
    refine List.nodup_append.mpr ⟨h, by simp, ?_⟩
    intro a ha
    obtain ⟨e, he, rfl⟩ := List.mem_map.mp ha
    simp only [List.map_cons, List.map_nil, List.mem_cons, List.not_mem_nil, or_false]
    exact hnot e he

theorem nodup_nota_inj {l : List Cand} (h : (l.map Cand.nota).Nodup) {a b : Cand}
    (ha : a ∈ l) (hb : b ∈ l) (hn : a.nota = b.nota) : a = b := by
  exact List.inj_on_of_nodup_map h ha hb hn

theorem insertSuggestion_rep (acc : List Cand) (s e : Cand) (he : e ∈ acc)
    (hf : e.rvkPrefixMatch = s.rvkPrefixMatch) :
    ∃ c ∈ insertSuggestion acc s, c.nota = e.nota ∧ e.relevance ≤ c.relevance := by
  unfold insertSuggestion
  by_cases hany : acc.any (fun x => x.nota = s.nota)
  · rw [if_pos hany]
    refine ⟨if e.nota = s.nota then mergePreferred e s else e,
      List.mem_map_of_mem _ he, ?_⟩
    by_cases heq : e.nota = s.nota
    · rw [if_pos heq]
      exact ⟨mergePreferred_nota e s heq, (mergePreferred_rel_ge e s hf).1⟩
    · rw [if_neg heq]
      exact ⟨rfl, le_refl _⟩
  · rw [if_neg hany]
    exact ⟨e, List.mem_append_left _ he, rfl, le_refl _⟩

theorem insertSuggestion_newRep (acc : List Cand) (s : Cand)
    (hf : ∀ x ∈ acc, x.rvkPrefixMatch = s.rvkPrefixMatch) :
    ∃ c ∈ insertSuggestion acc s, c.nota = s.nota ∧ s.relevance ≤ c.relevance := by
  unfold insertSuggestion
  by_cases hany : acc.any (fun x => x.nota = s.nota)
  · rw [if_pos hany]
    obtain ⟨e, he, heq⟩ := List.any_eq_true.mp hany
    have heq : e.nota = s.nota := by simpa using heq
    refine ⟨if e.nota = s.nota then mergePreferred e s else e,
      List.mem_map_of_mem _ he, ?_⟩
    rw [if_pos heq]
    refine ⟨(mergePreferred_nota e s heq).trans heq, (mergePreferred_rel_ge e s (hf e he)).2⟩
  · rw [if_neg hany]
    exact ⟨s, List.mem_append_right _ (by simp), rfl, le_refl _⟩

theorem foldl_insert_mem : ∀ (l acc : List Cand) (c : Cand),
    c ∈ List.foldl insertSuggestion acc l → c ∈ acc ∨ c ∈ l := by
  intro l
  induction l with
  | nil => intro acc c h; exact Or.inl h
  | cons s t ih =>
    intro acc c h
    rcases ih (insertSuggestion acc s) c h with h1 | h1
    · rcases mem_insertSuggestion h1 with h2 | h2
      · exact Or.inl h2
      · exact Or.inr (by simp [h2])
    · exact Or.inr (List.mem_cons_of_mem s h1)

theorem foldl_insert_nodup : ∀ (l acc : List Cand),
    (acc.map Cand.nota).Nodup →
    ((List.foldl insertSuggestion acc l).map Cand.nota).Nodup := by
  intro l
  induction l with
  | nil => intro acc h; exact h
  | cons s t ih => intro acc h; exact ih _ (insertSuggestion_nodup acc s h)

theorem foldl_insert_grows (f : Bool) : ∀ (l acc : List Cand),
    (∀ x ∈ acc, x.rvkPrefixMatch = f) → (∀ x ∈ l, x.rvkPrefixMatch = f) →
    (acc.map Cand.nota).Nodup →
    ∀ e ∈ acc, ∀ c ∈ List.foldl insertSuggestion acc l, c.nota = e.nota →
      e.relevance ≤ c.relevance := by
  intro l
  induction l with
  | nil =>
    intro acc _ _ hnd e he c hc hcn
    rw [nodup_nota_inj hnd hc he hcn]
  | cons s t ih =>
    intro acc hacc hl hnd e he c hc hcn
    have hsf : s.rvkPrefixMatch = f := hl s (List.mem_cons_self s t)
    have hef : e.rvkPrefixMatch = s.rvkPrefixMatch := (hacc e he).trans hsf.symm
    obtain ⟨e', he', hnota', hrel'⟩ := insertSuggestion_rep acc s e he hef
    have hacc' : ∀ x ∈ insertSuggestion acc s, x.rvkPrefixMatch = f := by
      intro x hx
      rcases mem_insertSuggestion hx with h1 | h1
      · exact hacc x h1
      · rw [h1]; exact hsf
    have hnd' := insertSuggestion_nodup acc s hnd
    have := ih (insertSuggestion acc s) hacc'
      (fun x hx => hl x (List.mem_cons_of_mem s hx)) hnd' e' he' c hc
      (hcn.trans hnota'.symm)
    omega

theorem foldl_insert_max (f : Bool) : ∀ (l acc : List Cand),
    (∀ x ∈ acc, x.rvkPrefixMatch = f) → (∀ x ∈ l, x.rvkPrefixMatch = f) →
    (acc.map Cand.nota).Nodup →
    ∀ c ∈ List.foldl insertSuggestion acc l, ∀ s ∈ l, s.nota = c.nota →
      s.relevance ≤ c.relevance := by
  intro l
  induction l with
  | nil => intro acc _ _ _ c _ s hs; exact absurd hs (List.not_mem_nil s)
  | cons s t ih =>
    intro acc hacc hl hnd c hc x hx hxn
    have hsf : s.rvkPrefixMatch = f := hl s (List.mem_cons_self s t)
    have hacc' : ∀ y ∈ insertSuggestion acc s, y.rvkPrefixMatch = f := by
      intro y hy
      rcases mem_insertSuggestion hy with h1 | h1
      · exact hacc y h1
      · rw [h1]; exact hsf
    have hnd' := insertSuggestion_nodup acc s hnd
    rcases List.mem_cons.mp hx with hxs | hxt
    · subst hxs
      obtain ⟨e', he', hnota', hrel'⟩ := insertSuggestion_newRep acc x
        (fun y hy => (hacc y hy).trans hsf.symm)
      have := foldl_insert_grows f t (insertSuggestion acc x) hacc'
        (fun y hy => hl y (List.mem_cons_of_mem x hy)) hnd' e' he' c hc
        (hxn.symm.trans hnota'.symm)
      omega
    · exact ih (insertSuggestion acc s) hacc'
        (fun y hy => hl y (List.mem_cons_of_mem s hy)) hnd' c hc x hxt hxn

theorem rawNodeSuggestions_spec (api : RvkApi) (terms : List String) (ps : Option (List String)) :
    ∀ c ∈ rawNodeSuggestions api terms ps,
      c.rvkPrefixMatch = (cleanPrefixList ps).isSome ∧
      (∀ cl, cleanPrefixList ps = some cl → matchesCleanList cl c.nota = true) := by
  intro c hc
  simp only [rawNodeSuggestions] at hc
  obtain ⟨term, -, hc⟩ := List.mem_flatMap.mp hc
  by_cases hterm : stripStr term = ""
  · rw [if_pos hterm] at hc; exact absurd hc (List.not_mem_nil c)
  · rw [if_neg hterm] at hc
    rcases hnode : api.nodesSearch term with _ | nodes
    · rw [hnode] at hc; exact absurd hc (List.not_mem_nil c)
    · rw [hnode] at hc
      obtain ⟨nb, -, heq⟩ := List.mem_filterMap.mp hc
      by_cases hempty : nb.1 = "" ∨ nb.2 = ""
      · rw [if_pos hempty] at heq; exact absurd heq (by simp)
      · rw [if_neg hempty] at heq
        rcases hcl : cleanPrefixList ps with _ | cl
        · rw [hcl] at heq
          have heq2 : some (mkNodeSuggestion term nb.1 nb.2 false) = some c := heq
          have hc' : mkNodeSuggestion term nb.1 nb.2 false = c := by simpa using heq2
          rw [← hc']
          exact ⟨by simp [mkNodeSuggestion, hcl], fun cl h => Option.noConfusion h⟩
        · rw [hcl] at heq
          have heq2 : (if matchesCleanList cl nb.1 = true then
              some (mkNodeSuggestion term nb.1 nb.2 true) else none) = some c := heq
          by_cases hm : matchesCleanList cl nb.1 = true
          · rw [if_pos hm] at heq2
            have hc' : mkNodeSuggestion term nb.1 nb.2 true = c := by simpa using heq2
            rw [← hc']
            refine ⟨by simp [mkNodeSuggestion, hcl], fun cl' h => ?_⟩
            have hcc : cl = cl' := Option.some.inj h
            rw [← hcc]
            simpa [mkNodeSuggestion] using hm
          · rw [if_neg hm] at heq2; exact absurd heq2 (by simp)

theorem notNQ_of_LM (l : List Char)
    (h : (['L'].isPrefixOf l || ['M'].isPrefixOf l) = true) :
    ['N', 'Q'].isPrefixOf l = false := by
  cases l with
  | nil => simp [List.isPrefixOf] at h
  | cons c t =>
    simp only [List.isPrefixOf, Bool.and_true, Bool.or_eq_true, beq_iff_eq] at h
    have hNL : ('N' == 'L') = false := by decide
    have hNM : ('N' == 'M') = false := by decide
    rcases h with h | h
    · subst h
      simp [List.isPrefixOf, hNL]
    · subst h
      simp [List.isPrefixOf, hNM]

/-- C8: in the Phase-2 merge of `search_nodes_endpoint_and_validate`, for two
entries with the same surface code the prefix-matched one wins over a
non-matched one, and only otherwise does the higher per-term relevance win;
within one call every accumulated entry carries the same prefix flag (a
prefix filter discards non-matching nodes before the merge), so the merged
output keeps, per code, an entry of maximal relevance; and with the filter
["L","M"] no merged entry has a code starting with "NQ". -/
theorem searchNodes_merge_rule (api : RvkApi) (terms : List String) (ps : Option (List String)) :
    (∀ e s : Cand, s.rvkPrefixMatch = true → e.rvkPrefixMatch = false →
        mergePreferred e s = s) ∧
    (∀ c ∈ searchNodesEndpointAndValidate api terms ps,
        c ∈ rawNodeSuggestions api terms ps ∧
        ∀ s ∈ rawNodeSuggestions api terms ps, s.nota = c.nota →
          s.relevance ≤ c.relevance) ∧
    (∀ c₁ ∈ rawNodeSuggestions api terms ps, ∀ c₂ ∈ rawNodeSuggestions api terms ps,
        c₁.rvkPrefixMatch = c₂.rvkPrefixMatch) ∧
    (∀ c ∈ searchNodesEndpointAndValidate api terms (some ["L", "M"]),
        (['L'].isPrefixOf c.nota.data || ['M'].isPrefixOf c.nota.data) = true ∧
        ['N', 'Q'].isPrefixOf c.nota.data = false) := by
  refine ⟨?_, ?_, ?_, ?_⟩
  · intro e s hs he
    simp [mergePreferred, hs, he]
  · intro c hc
    have hmem : c ∈ rawNodeSuggestions api terms ps := by
      rcases foldl_insert_mem _ [] c hc with h | h
      · exact absurd h (List.not_mem_nil c)
      · exact h
    refine ⟨hmem, fun s hs hsn => ?_⟩
    exact foldl_insert_max (cleanPrefixList ps).isSome _ [] (by simp)
      (fun x hx => (rawNodeSuggestions_spec api terms ps x hx).1) (by simp) c hc s hs hsn
  · intro c₁ h₁ c₂ h₂
    rw [(rawNodeSuggestions_spec api terms ps c₁ h₁).1,
      (rawNodeSuggestions_spec api terms ps c₂ h₂).1]
  · intro c hc
    have hmem : c ∈ rawNodeSuggestions api terms (some ["L", "M"]) := by
      rcases foldl_insert_mem _ [] c hc with h | h
      · exact absurd h (List.not_mem_nil c)
      · exact h
    have hclean : cleanPrefixList (some ["L", "M"]) = some ["L", "M"] := by decide
    have hm := (rawNodeSuggestions_spec api terms (some ["L", "M"]) c hmem).2 _ hclean
    have hdl : "L".data = ['L'] := rfl
    have hdm : "M".data = ['M'] := rfl
    simp only [matchesCleanList, List.any_cons, List.any_nil, Bool.or_false,
      hdl, hdm] at hm
    exact ⟨hm, notNQ_of_LM _ hm⟩

def apiScenarioC8 : RvkApi :=
  { nodesSearch := fun term =>
      if term = "soziologie" then
        some [("NQ 5000", "Soziologie der Geschichte"), ("MN 1000", "Soziologie")]
      else some [],
    childrenSearch := fun _ => some [],
    ancestorsSearch := fun _ => none,
    nodeValidate := fun _ => none }

def headScenarioC8 : Cand :=
  (searchNodesEndpointAndValidate apiScenarioC8 ["soziologie"] (some ["L", "M"])).headD default

/-- C8 witness: on a concrete two-node response with filter ["L","M"], the
merged head entry starts with "L" or "M" and not with "NQ". -/
theorem searchNodes_merge_rule_witness :
    (['L'].isPrefixOf headScenarioC8.nota.data || ['M'].isPrefixOf headScenarioC8.nota.data) = true ∧
    ['N', 'Q'].isPrefixOf headScenarioC8.nota.data = false :=
  (searchNodes_merge_rule apiScenarioC8 ["soziologie"] (some ["L", "M"])).2.2.2
    headScenarioC8 (by decide)

/-! ## `search_children_endpoint_and_validate` (rvk_hierarchical_combinations.py 342-453) -/

/-- Lines 354-360: the regex `([A-Z]+\s+\d+)` matched at the start of the
input decides the key sent to the children endpoint (group 1, stripped),
falling back to the stripped input. -/
def baseNotaKey (nt : String) : String :=
  let l := nt.data
  let up := l.takeWhile Char.isUpper
  let r1 := l.drop up.length
  let ws := r1.takeWhile Char.isWhitespace
  let r2 := r1.drop ws.length
  let ds := r2.takeWhile Char.isDigit
  if up ≠ [] ∧ ws ≠ [] ∧ ds ≠ [] then String.mk (stripChars (up ++ ws ++ ds))
  else stripStr nt

example : baseNotaKey "LB 56000 - LB 56730" = "LB 56000" := by decide
example : baseNotaKey "MN" = "MN" := by decide

/-- A decimal numeral, written with explicit fuel so that it reduces in the
kernel (`toString` on `ℕ` does not). -/
def digitChar (n : ℕ) : Char := Char.ofNat (48 + n % 10)

def natDigitsFuel : ℕ → ℕ → List Char
  | 0, _ => []
  | fuel + 1, n => if n < 10 then [digitChar n] else natDigitsFuel fuel (n / 10) ++ [digitChar (n % 10)]

def natToStr (n : ℕ) : String := String.mk (natDigitsFuel (n + 1) n)

example : natToStr 1 = "1" := by decide

/-- An apostrophe, kept out of string literals. -/
def apoStr : String := String.mk [Char.ofNat 39]

/-- Lines 381: the lowercased label-plus-ancestor-path text of a child. -/
def childPathTextOf (api : RvkApi) (cn cb : String) : String :=
  strLower (cb ++ " " ++ strJoin " " ((getHierarchicalPath api cn).map PathStep.benennung))

/-- Lines 395-402: the primary keyword appears in the child label, or some
related concept appears in the label-plus-path text. -/
def childMatchesB (api : RvkApi) (related : List String) (pk cn cb : String) : Bool :=
  containsStr (strLower cb) (strLower pk) ||
  related.any (fun rc => containsStr (childPathTextOf api cn cb) (strLower rc))

/-- Lines 386-393: the simplified regional chain scored for children, first
match wins with base `50 - 5*i` and a `+20` preference bonus. -/
def childRegionalChain : List String := ["deutschland", "usa", "europa", "global"]

def childRegionalScoreAux (ptext : String) (prefs : List String) :
    ℕ → List String → ℚ
  | _, [] => 0
  | i, region :: rest =>
    if containsStr ptext region ∨
        ((regionalIndicators.lookup region).getD []).any (fun ind => containsStr ptext ind) then
      (if region ∈ prefs then (50 - 5 * (i : ℚ)) + 20 else 50 - 5 * (i : ℚ))
    else childRegionalScoreAux ptext prefs (i + 1) rest

def childRegionalScore (ptext : String) (prefs : List String) : ℚ :=
  childRegionalScoreAux ptext prefs 0 childRegionalChain

/-- The child result dict (lines 425-438). -/
def mkChildCand (cn cb : String) (rel : ℤ) (parentNota : String) (currentDepth : ℕ)
    (pk : String) (path : List PathStep) : Cand :=
  { nota := cn, benennung := cb, relevance := rel,
    combinationUsed := some ("Child of " ++ parentNota),
    combinationType := some "child_exploration",
    searchStrategy := some ("Child Exploration (Depth " ++ natToStr (currentDepth + 1) ++ ")"),
    reasoning := some ("Refined search from parent " ++ apoStr ++ parentNota ++ apoStr ++
      ", relevant to " ++ apoStr ++ pk ++ apoStr),
    priorityWeight := some ((rel : ℚ) / 100),
    rvkHierarchyLevel := some (determineRvkHierarchyLevel cn),
    hierarchicalPath := some path,
    pathDisplay := some (formatHierarchicalPath path),
    hauptgruppeMatch := some false }

/-- The child loop of `search_children_endpoint_and_validate` (lines
371-447).  The state pair is (accumulated `children_results`, shared
`seen_notations`).  When `childMatchesB` holds, evaluating the country-bonus
condition at line 419 reads the undefined name
`found_regional_level_in_notation`; the `NameError` is caught by the
function-level handler, which returns the results accumulated so far — the
already-grown seen set persists, since the Python set is mutated in place.
(Children are assumed to carry a label attribute, possibly empty.) -/
def processKids (api : RvkApi) (related : List String) (parentNota : String)
    (currentDepth maxDepth : ℕ) (parentRel : ℚ) (pk : String) (prefs : List String)
    (recurse : String → ℚ → List String → List Cand × List String) :
    List (String × String) → List Cand → List String → List Cand × List String
  | [], acc, seen => (acc, seen)
  | (cn, cb) :: rest, acc, seen =>
    if cn = "" ∨ cn ∈ seen then
      processKids api related parentNota currentDepth maxDepth parentRel pk prefs recurse
        rest acc seen
    else
      let seen1 := seen ++ [cn]
      let path := getHierarchicalPath api cn
      let ptext := childPathTextOf api cn cb
      let kwScore : ℕ := calculateRelevanceForDescription [pk] cb
      let regScore0 : ℚ := childRegionalScore ptext prefs
      if childMatchesB api related pk cn cb then
        (acc, seen1)
      else
        let regScore : ℚ := regScore0 * (1 / 10)
        let combined : ℚ := (kwScore : ℚ) * (7 / 10) + regScore * (3 / 10)
        let minFromParent : ℚ := parentRel * (6 / 10)
        let rel : ℤ := min 100 (max 10 (pyInt (max minFromParent combined)))
        let cand := mkChildCand cn cb rel parentNota currentDepth pk path
        let acc1 := acc ++ [cand]
        if currentDepth + 1 < maxDepth ∧
            determineRvkHierarchyLevel cn ∈ ["Hauptgruppe", "Untergruppe"] then
          let sub := recurse cn (rel : ℚ) seen1
          processKids api related parentNota currentDepth maxDepth parentRel pk prefs recurse
            rest (acc1 ++ sub.1) sub.2
        else
          processKids api related parentNota currentDepth maxDepth parentRel pk prefs recurse
            rest acc1 seen1

/-- `search_children_endpoint_and_validate`, with fuel
`maxDepth - currentDepth` (the recursion guard `current_depth + 1 <
max_depth` keeps the fuel positive exactly while the source recursion can
still fire, and the fuel-0 branch coincides with the depth guard of line
349). -/
def searchChildrenFuel (api : RvkApi) (related : List String) (maxDepth : ℕ)
    (pk : String) (prefs : List String) :
    ℕ → String → ℕ → ℚ → List String → List Cand × List String
  | 0, _, _, _, seen => ([], seen)
  | fuel + 1, nt, currentDepth, parentRel, seen =>
    if currentDepth ≥ maxDepth then ([], seen)
    else
      match api.childrenSearch (baseNotaKey nt) with
      | none => ([], seen)
      | some kids =>
        processKids api related nt currentDepth maxDepth parentRel pk prefs
          (fun n r s => searchChildrenFuel api related maxDepth pk prefs fuel n
            (currentDepth + 1) r s)
          kids [] seen

def searchChildrenEndpointAndValidate (api : RvkApi) (related : List String)
    (nt : String) (currentDepth maxDepth : ℕ) (parentRel : ℚ) (pk : String)
    (prefs : List String) (seen : List String) : List Cand × List String :=
  searchChildrenFuel api related maxDepth pk prefs (maxDepth - currentDepth)
    nt currentDepth parentRel seen

/-- The run of the child loop on a given fetched-children list, at the
depth/ceiling pair (0, 1) used by Phase 3 (no recursion can fire there). -/
def processChildrenTop (api : RvkApi) (related : List String) (nt : String)
    (parentRel : ℚ) (pk : String) (prefs : List String)
    (kids : List (String × String)) (seen : List String) : List Cand × List String :=
  processKids api related nt 0 1 parentRel pk prefs
    (fun n r s => searchChildrenFuel api related 1 pk prefs 0 n (0 + 1) r s)
    kids [] seen

theorem childRel_ge (k : ℕ) (hk : k ≤ 20) (combined : ℚ) :
    (3 * k : ℤ) ≤ min 100 (max 10 (pyInt (max ((5 * (k : ℚ)) * (6 / 10)) combined))) := by
  have heq : (5 * (k : ℚ)) * (6 / 10) = ((3 * k : ℤ) : ℚ) := by push_cast; ring
  have hle : ((3 * k : ℤ) : ℚ) ≤ max ((5 * (k : ℚ)) * (6 / 10)) combined := by
    rw [← heq]; exact le_max_left _ _
  have h0 : (0 : ℚ) ≤ max ((5 * (k : ℚ)) * (6 / 10)) combined := by
    refine le_trans ?_ hle
    push_cast
    positivity
  rw [pyInt_eq_floor_of_nonneg _ h0]
  have h2 : (3 * k : ℤ) ≤ ⌊max ((5 * (k : ℚ)) * (6 / 10)) combined⌋ := Int.le_floor.mpr hle
  have h3 : (3 * k : ℤ) ≤ max 10 ⌊max ((5 * (k : ℚ)) * (6 / 10)) combined⌋ :=
    le_trans h2 (le_max_right _ _)
  refine le_min ?_ h3
  omega

theorem processKids_rel_lb (api : RvkApi) (related : List String) (pn pk : String)
    (prefs : List String)
    (recurse : String → ℚ → List String → List Cand × List String) (k : ℕ) (hk : k ≤ 20) :
    ∀ (kids : List (String × String)) (acc : List Cand) (seen : List String),
      (∀ c ∈ acc, (3 * k : ℤ) ≤ c.relevance) →
      ∀ c ∈ (processKids api related pn 0 1 (5 * (k : ℚ)) pk prefs recurse kids acc seen).1,
        (3 * k : ℤ) ≤ c.relevance := by
  intro kids
  induction kids with
  | nil => intro acc seen hacc c hc; exact hacc c hc
  | cons kid rest ih =>
    intro acc seen hacc c hc
    obtain ⟨cn, cb⟩ := kid
    by_cases hskip : cn = "" ∨ cn ∈ seen
    · rw [processKids, if_pos hskip] at hc
      exact ih acc seen hacc c hc
    · rw [processKids, if_neg hskip] at hc
      by_cases hmatch : childMatchesB api related pk cn cb = true
      · simp only [hmatch, if_true] at hc
        exact hacc c hc
      · simp only [hmatch, if_false] at hc
        have hguard : ¬ (0 + 1 < 1 ∧
            determineRvkHierarchyLevel cn ∈ ["Hauptgruppe", "Untergruppe"]) := by
          simp
        rw [if_neg hguard] at hc
        refine ih _ _ ?_ c hc
        intro d hd
        rcases List.mem_append.mp hd with hd1 | hd1
        · exact hacc d hd1
        · have hd2 : d = mkChildCand cn cb
              (min 100 (max 10 (pyInt (max ((5 * (k : ℚ)) * (6 / 10))
                ((calculateRelevanceForDescription [pk] cb : ℚ) * (7 / 10) +
                  childRegionalScore (childPathTextOf api cn cb) prefs * (1 / 10) * (3 / 10))))))
              pn 0 pk (getHierarchicalPath api cn) := by simpa using hd1
          rw [hd2]
          exact childRel_ge k hk _

/-- C1: for a Phase-3 parent explored with relevance `p` (Phase-2 relevances
are always multiples of 5 in [0,100], so `p = 5k` with `k ≤ 20`), every child
candidate emitted by `search_children_endpoint_and_validate` at the Phase-3
depth pair (0, 1) has relevance at least `0.6 * p`: the `int()` truncation
after the floor `max(parent_relevance * 0.6, combined)` cannot drop below
`0.6 * p` because `0.6 * 5k = 3k` is an integer. -/
theorem searchChildren_monotonic_floor (api : RvkApi) (related : List String)
    (nt pk : String) (prefs seen : List String) (k : ℕ) (hk : k ≤ 20) :
    ∀ c ∈ (searchChildrenEndpointAndValidate api related nt 0 1 (5 * (k : ℚ))
        pk prefs seen).1,
      (6 / 10 : ℚ) * (5 * (k : ℚ)) ≤ (c.relevance : ℚ) := by
  intro c hc
  have hint : (3 * k : ℤ) ≤ c.relevance := by
    unfold searchChildrenEndpointAndValidate at hc
    rw [searchChildrenFuel] at hc
    rw [if_neg (by omega)] at hc
    rcases hkids : api.childrenSearch (baseNotaKey nt) with _ | kids
    · rw [hkids] at hc
      exact absurd hc (List.not_mem_nil c)
    · rw [hkids] at hc
      exact processKids_rel_lb api related nt pk prefs _ k hk kids [] seen
        (by intro d hd; exact absurd hd (List.not_mem_nil d)) c hc
  have : ((3 * k : ℤ) : ℚ) ≤ (c.relevance : ℚ) := by exact_mod_cast hint
  calc (6 / 10 : ℚ) * (5 * (k : ℚ)) = ((3 * k : ℤ) : ℚ) := by push_cast; ring
    _ ≤ (c.relevance : ℚ) := this

def apiScenarioC1 : RvkApi :=
  { nodesSearch := fun _ => some [],
    childrenSearch := fun nt => if nt = "MN" then some [("MN 1000", "xyz")] else some [],
    ancestorsSearch := fun _ => none,
    nodeValidate := fun _ => none }

def childHeadC1 : Cand :=
  (searchChildrenEndpointAndValidate apiScenarioC1 [] "MN" 0 1 (5 * ((19 : ℕ) : ℚ))
    "migration" [] []).1.headD default

/-- C1 witness: a parent of relevance 95 emits a child floored at 57 ≥ 0.6·95. -/
theorem searchChildren_monotonic_floor_witness :
    (6 / 10 : ℚ) * (5 * ((19 : ℕ) : ℚ)) ≤ (childHeadC1.relevance : ℚ) :=
  searchChildren_monotonic_floor apiScenarioC1 [] "MN" "migration" [] [] 19 (by decide)
    childHeadC1 (by decide)

theorem processKids_nota_sub (api : RvkApi) (related : List String) (pn pk : String)
    (prefs : List String) (p : ℚ)
    (recurse : String → ℚ → List String → List Cand × List String) :
    ∀ (kids : List (String × String)) (acc : List Cand) (seen : List String),
      ∀ r ∈ (processKids api related pn 0 1 p pk prefs recurse kids acc seen).1,
        r ∈ acc ∨ r.nota ∈ kids.map Prod.fst := by
  intro kids
  induction kids with
  | nil => intro acc seen r hr; exact Or.inl hr
  | cons kid rest ih =>
    intro acc seen r hr
    obtain ⟨cn, cb⟩ := kid
    by_cases hskip : cn = "" ∨ cn ∈ seen
    · rw [processKids, if_pos hskip] at hr
      rcases ih acc seen r hr with h | h
      · exact Or.inl h
      · exact Or.inr (by simpa using Or.inr (List.mem_map.mp h |>.elim
          (fun x hx => List.mem_map.mpr ⟨x, hx.1, hx.2⟩)))
    · rw [processKids, if_neg hskip] at hr
      by_cases hmatch : childMatchesB api related pk cn cb = true
      · simp only [hmatch, if_true] at hr
        exact Or.inl hr
      · simp only [hmatch, if_false] at hr
        have hguard : ¬ (0 + 1 < 1 ∧
            determineRvkHierarchyLevel cn ∈ ["Hauptgruppe", "Untergruppe"]) := by
          simp
        rw [if_neg hguard] at hr
        rcases ih _ _ r hr with h | h
        · rcases List.mem_append.mp h with h1 | h1
          · exact Or.inl h1
          · refine Or.inr ?_
            have req := List.mem_singleton.mp h1
            have hn : r.nota = cn := by rw [req]; rfl
            simp [hn]
        · exact Or.inr (List.mem_cons_of_mem _ h)

theorem processKids_abort (api : RvkApi) (related : List String) (pn pk : String)
    (prefs : List String) (p : ℚ)
    (recurse : String → ℚ → List String → List Cand × List String)
    (c : String × String) (post : List (String × String))
    (hmatch : childMatchesB api related pk c.1 c.2 = true) (hcn : c.1 ≠ "") :
    ∀ (pre : List (String × String)) (acc : List Cand) (seen : List String),
      (∀ x ∈ pre, childMatchesB api related pk x.1 x.2 = false) →
      c.1 ∉ seen → c.1 ∉ pre.map Prod.fst →
      (processKids api related pn 0 1 p pk prefs recurse (pre ++ c :: post) acc seen).1 =
        (processKids api related pn 0 1 p pk prefs recurse pre acc seen).1 := by
  intro pre
  induction pre with
  | nil =>
    intro acc seen _ hs _
    obtain ⟨cn, cb⟩ := c
    have hskip : ¬ (cn = "" ∨ cn ∈ seen) := by
      push_neg
      exact ⟨hcn, hs⟩
    rw [List.nil_append, processKids, processKids, if_neg hskip]
    simp only [hmatch, if_true]
  | cons x pre' ih =>
    intro acc seen hpre hs hp
    obtain ⟨xn, xb⟩ := x
    have hxp : c.1 ≠ xn ∧ c.1 ∉ pre'.map Prod.fst := by
      constructor
      · intro hcon
        exact hp (by simp [hcon])
      · intro hcon
        exact hp (List.mem_cons_of_mem _ hcon)
    by_cases hskip : xn = "" ∨ xn ∈ seen
    · rw [List.cons_append, processKids, if_pos hskip, processKids, if_pos hskip]
      exact ih acc seen (fun y hy => hpre y (List.mem_cons_of_mem _ hy)) hs hxp.2
    · have hxm : childMatchesB api related pk xn xb = false :=
        hpre (xn, xb) (List.mem_cons_self _ _)
      rw [List.cons_append, processKids, if_neg hskip, processKids, if_neg hskip]
      simp only [hxm, Bool.false_eq_true, if_false]
      have hguard : ¬ (0 + 1 < 1 ∧
          determineRvkHierarchyLevel xn ∈ ["Hauptgruppe", "Untergruppe"]) := by
        simp
      rw [if_neg hguard, if_neg hguard]
      refine ih _ _ (fun y hy => hpre y (List.mem_cons_of_mem _ hy)) ?_ hxp.2
      intro hcon
      rcases List.mem_append.mp hcon with h1 | h1
      · exact hs h1
      · exact hxp.1 (by simpa using h1)

/-- C3: if the fetched children of a Phase-3 parent are `pre ++ c :: post`,
no child in `pre` satisfies the keyword/related-concept condition, and `c`
(the first processed child that does) is actually processed (non-empty code,
not already seen), then `search_children_endpoint_and_validate` returns
exactly the children emitted for `pre`: the undefined name
`found_regional_level_in_notation` in the country-bonus condition raises a
`NameError` at `c`, the blanket handler swallows it, and neither `c` nor any
later sibling is emitted. -/
theorem searchChildren_abort_on_match (api : RvkApi) (related : List String)
    (nt pk : String) (prefs : List String) (p : ℚ) (seen : List String)
    (pre post : List (String × String)) (c : String × String)
    (hfetch : api.childrenSearch (baseNotaKey nt) = some (pre ++ c :: post))
    (hpre : ∀ x ∈ pre, childMatchesB api related pk x.1 x.2 = false)
    (hcn : c.1 ≠ "") (hseen : c.1 ∉ seen) (hcpre : c.1 ∉ pre.map Prod.fst)
    (hmatch : childMatchesB api related pk c.1 c.2 = true) :
    (searchChildrenEndpointAndValidate api related nt 0 1 p pk prefs seen).1 =
      (processChildrenTop api related nt p pk prefs pre seen).1 ∧
    c.1 ∉ ((processChildrenTop api related nt p pk prefs pre seen).1.map Cand.nota) ∧
    ∀ q ∈ post, q.1 ∉ pre.map Prod.fst →
      q.1 ∉ ((processChildrenTop api related nt p pk prefs pre seen).1.map Cand.nota) := by
  have hsub : ∀ r ∈ (processChildrenTop api related nt p pk prefs pre seen).1,
      r.nota ∈ pre.map Prod.fst := by
    intro r hr
    unfold processChildrenTop at hr
    rcases processKids_nota_sub api related nt pk prefs p _ pre [] seen r hr with h | h
    · exact absurd h (List.not_mem_nil r)
    · exact h
  refine ⟨?_, ?_, ?_⟩
  · unfold searchChildrenEndpointAndValidate
    rw [searchChildrenFuel]
    rw [if_neg (by omega), hfetch]
    unfold processChildrenTop
    exact processKids_abort api related nt pk prefs p _ c post hmatch hcn pre [] seen
      hpre hseen hcpre
  · intro hcon
    obtain ⟨r, hr, hrn⟩ := List.mem_map.mp hcon
    exact hcpre (hrn ▸ hsub r hr)
  · intro q hq hqpre hcon
    obtain ⟨r, hr, hrn⟩ := List.mem_map.mp hcon
    exact hqpre (hrn ▸ hsub r hr)

def apiScenarioC3 : RvkApi :=
  { nodesSearch := fun _ => some [],
    childrenSearch := fun nt =>
      if nt = "MN" then
        some [("MN 1000", "allgemeines"), ("MN 8300", "Migration"), ("MN 9000", "sonstiges")]
      else some [],
    ancestorsSearch := fun _ => none,
    nodeValidate := fun _ => none }

/-- C3 witness: with children (MN 1000, MN 8300 "Migration", MN 9000) and
primary keyword "migration", the call returns exactly the MN 1000 result. -/
theorem searchChildren_abort_on_match_witness :
    (searchChildrenEndpointAndValidate apiScenarioC3 [] "MN" 0 1 40 "migration" [] []).1 =
      (processChildrenTop apiScenarioC3 [] "MN" 40 "migration" []
        [("MN 1000", "allgemeines")] []).1 ∧
    ("MN 8300", "Migration").1 ∉ ((processChildrenTop apiScenarioC3 [] "MN" 40 "migration" []
        [("MN 1000", "allgemeines")] []).1.map Cand.nota) ∧
    ∀ q ∈ [("MN 9000", "sonstiges")], q.1 ∉ [("MN 1000", "allgemeines")].map Prod.fst →
      q.1 ∉ ((processChildrenTop apiScenarioC3 [] "MN" 40 "migration" []
        [("MN 1000", "allgemeines")] []).1.map Cand.nota) :=
  searchChildren_abort_on_match apiScenarioC3 [] "MN" "migration" [] 40 []
    [("MN 1000", "allgemeines")] [("MN 9000", "sonstiges")] ("MN 8300", "Migration")
    (by decide) (by decide) (by decide) (by decide) (by decide) (by decide)

/-! ## `search_with_hierarchical_priority_logic` (rvk_hierarchical_combinations.py 456-624) -/

/-- Step 3 (lines 502-505): the regional priority chain for Phase-4 scoring. -/
def regionalScoringChain : List String :=
  ["deutschland", "usa", "frankreich", "großbritannien", "italien", "spanien", "russland",
   "china", "japan", "brasilien", "europa", "afrika", "asien", "global"]

/-- Lines 507-512: the deduplicated Phase-2 search-term list.  Python
iterates `set(...)` in an unspecified order; the model fixes the order by
deduplication, which no claim depends on. -/
def phase2Terms (ai : AiAnalysis) (pk : String) (prefs : List String) : List String :=
  let allTerms := [pk] ++ ai.suggestedSearchTerms ++
    (prefs.dedup.map (fun country => pk ++ " " ++ country))
  ((allTerms.filter (fun t => stripStr t ≠ "")).map stripStr).dedup

/-- The shared `if notation not in seen: add and append` loops
(lines 518-522 and 544-547). -/
def addUnseen : List Cand → List Cand × List String → List Cand × List String
  | [], st => st
  | r :: rest, (acc, seen) =>
    if r.nota ∈ seen then addUnseen rest (acc, seen)
    else addUnseen rest (acc ++ [r], seen ++ [r.nota])

/-- Lines 531-536: the broad-category test for child exploration. -/
def isBroadCategory (nt : String) : Bool :=
  determineRvkHierarchyLevel nt ∈ (["Hauptgruppe", "Untergruppe"] : List String) ||
  (containsStr nt " - " && decide ((splitWsStr nt).length > 1))

/-- Step 4 (lines 524-547): bounded child exploration over the top results,
threading the shared seen set through `search_children_endpoint_and_validate`
(`MAX_CHILD_EXPLORATION_DEPTH = 1`). -/
def phase3Explore (api : RvkApi) (related : List String) (pk : String)
    (prefs : List String) : List Cand → List Cand × List String → List Cand × List String
  | [], st => st
  | top :: rest, (acc, seen) =>
    if isBroadCategory top.nota then
      let res := searchChildrenEndpointAndValidate api related top.nota 0 1
        (top.relevance : ℚ) pk prefs seen
      phase3Explore api related pk prefs rest (addUnseen res.1 (acc, res.2))
    else phase3Explore api related pk prefs rest (acc, seen)

/-- The Phase-4 regional scan (lines 566-573): first chain entry whose name
or indicator list hits the label-plus-path text. -/
def regionMatchesText (ptext : String) (region : String) : Bool :=
  containsStr ptext region ||
  ((regionalIndicators.lookup region).getD []).any (fun ind => containsStr ptext ind)

def regionalScanAux (ptext : String) : ℕ → List String → Option (ℕ × String)
  | _, [] => none
  | i, region :: rest =>
    if regionMatchesText ptext region then some (i, region)
    else regionalScanAux ptext (i + 1) rest

/-- The Phase-4 rescoring of one collected candidate (lines 551-620),
including the dict update. -/
def rescoreCandidate (api : RvkApi) (related : List String) (priorityHG : List String)
    (prefs : List String) (pk : String) (c : Cand) : Cand :=
  let hierPath := getHierarchicalPath api c.nota
  let ptext := strLower (c.benennung ++ " " ++ strJoin " " (hierPath.map PathStep.benennung))
  let hgPre : String :=
    match c.nota.data with
    | [] => ""
    | ch :: _ => String.mk [upperCh ch]
  let hgScore0 : ℚ :=
    if hgPre ∈ priorityHG then 100 else if hgPre ∈ (["M", "L"] : List String) then 80 else 20
  let regScore0 : ℚ :=
    match regionalScanAux ptext 0 regionalScoringChain with
    | some (i, region) =>
      if region ∈ prefs then (50 - 2 * (i : ℚ)) + 40 else (50 - 2 * (i : ℚ)) + 10
    | none => 0
  let kwScore : ℕ := calculateRelevanceForDescription [pk] c.benennung
  let pkMatch : Bool := containsStr (strLower c.benennung) (strLower pk) ||
    related.any (fun rc => containsStr ptext (strLower rc))
  let regScore : ℚ := if pkMatch then regScore0 else regScore0 * (5 / 100)
  let hgScore : ℚ := if pkMatch then hgScore0 else hgScore0 * (1 / 2)
  let fs0 : ℚ := hgScore * (3 / 10) + regScore * (25 / 100) + (kwScore : ℚ) * (45 / 100)
  let fs1 : ℤ := max 10 (min 100 (pyInt fs0))
  let fs : ℤ := if kwScore > 70 ∧ pkMatch then min 100 (fs1 + 15) else fs1
  let displayRegions : String :=
    if prefs ≠ [] then strJoin ", " (stableSortBy strLeB prefs.dedup) else "None"
  { c with
    relevance := fs,
    combinationUsed := some (c.combinationUsed.getD (pk ++ " in " ++ hgPre)),
    combinationType := some (c.combinationType.getD "hierarchical_priority"),
    searchStrategy := some (c.searchStrategy.getD
      ("Hierarchical Priority Search (Hauptgruppe: " ++ hgPre ++ ")")),
    reasoning := some ("Priority: Hauptgruppe " ++ hgPre ++ ", Regional context: [" ++
      displayRegions ++ "]"),
    priorityWeight := some ((fs : ℚ) / 100),
    rvkHierarchyLevel := some (determineRvkHierarchyLevel c.nota),
    hierarchicalPath := some hierPath,
    pathDisplay := some (formatHierarchicalPath hierPath),
    hauptgruppeMatch := some (decide (hgPre ∈ priorityHG)) }

/-- The Phase-2 node-search results of one request. -/
def phase2InitialResults (api : RvkApi) (ai : AiAnalysis) (combos : Combos) : List Cand :=
  searchNodesEndpointAndValidate api
    (phase2Terms ai (phase1Signals ai combos).1 (phase1Signals ai combos).2) none

/-- `search_with_hierarchical_priority_logic(keyword_combinations)`. -/
def searchWithHierarchicalPriorityLogic (api : RvkApi) (ai : AiAnalysis)
    (combos : Combos) : List Cand :=
  let priorityHG := priorityHauptgruppenOf combos
  let pk := (phase1Signals ai combos).1
  let prefs := (phase1Signals ai combos).2
  let initial := phase2InitialResults api ai combos
  let st0 := addUnseen initial ([], [])
  let sortedInitial := stableSortBy (fun a b => b.relevance ≤ a.relevance) initial
  let st1 := phase3Explore api ai.relatedGermanConcepts pk prefs (sortedInitial.take 5) st0
  let finalResults := st1.1.map
    (rescoreCandidate api ai.relatedGermanConcepts priorityHG prefs pk)
  (stableSortBy (fun a b => b.relevance ≤ a.relevance) finalResults).take 12

theorem processKids_seen_mono (api : RvkApi) (related : List String) (pn pk : String)
    (prefs : List String) (p : ℚ)
    (recurse : String → ℚ → List String → List Cand × List String) :
    ∀ (kids : List (String × String)) (acc : List Cand) (seen : List String),
      ∀ x ∈ seen, x ∈ (processKids api related pn 0 1 p pk prefs recurse kids acc seen).2 := by
  intro kids
  induction kids with
  | nil => intro acc seen x hx; exact hx
  | cons kid rest ih =>
    intro acc seen x hx
    obtain ⟨cn, cb⟩ := kid
    by_cases hskip : cn = "" ∨ cn ∈ seen
    · rw [processKids, if_pos hskip]
      exact ih acc seen x hx
    · rw [processKids, if_neg hskip]
      by_cases hmatch : childMatchesB api related pk cn cb = true
      · simp only [hmatch, if_true]
        exact List.mem_append_left _ hx
      · simp only [hmatch, if_false]
        have hguard : ¬ (0 + 1 < 1 ∧
            determineRvkHierarchyLevel cn ∈ ["Hauptgruppe", "Untergruppe"]) := by
          simp
        rw [if_neg hguard]
        exact ih _ _ x (List.mem_append_left _ hx)

theorem processKids_results_in_seen (api : RvkApi) (related : List String) (pn pk : String)
    (prefs : List String) (p : ℚ)
    (recurse : String → ℚ → List String → List Cand × List String) :
    ∀ (kids : List (String × String)) (acc : List Cand) (seen : List String),
      (∀ r ∈ acc, r.nota ∈ seen) →
      ∀ r ∈ (processKids api related pn 0 1 p pk prefs recurse kids acc seen).1,
        r.nota ∈ (processKids api related pn 0 1 p pk prefs recurse kids acc seen).2 := by
  intro kids
  induction kids with
  | nil => intro acc seen hacc r hr; exact hacc r hr
  | cons kid rest ih =>
    intro acc seen hacc r hr
    obtain ⟨cn, cb⟩ := kid
    by_cases hskip : cn = "" ∨ cn ∈ seen
    · rw [processKids, if_pos hskip] at hr ⊢
      exact ih acc seen hacc r hr
    · rw [processKids, if_neg hskip] at hr ⊢
      by_cases hmatch : childMatchesB api related pk cn cb = true
      · simp only [hmatch, if_true] at hr ⊢
        exact List.mem_append_left _ (hacc r hr)
      · simp only [hmatch, if_false] at hr ⊢
        have hguard : ¬ (0 + 1 < 1 ∧
            determineRvkHierarchyLevel cn ∈ ["Hauptgruppe", "Untergruppe"]) := by
          simp
        rw [if_neg hguard] at hr ⊢
        refine ih _ _ ?_ r hr
        intro d hd
        rcases List.mem_append.mp hd with hd1 | hd1
        · exact List.mem_append_left _ (hacc d hd1)
        · have req := List.mem_singleton.mp hd1
          have hn : d.nota = cn := by rw [req]; rfl
          rw [hn]
          exact List.mem_append_right _ (by simp)

theorem searchChildren_results_in_seen (api : RvkApi) (related : List String)
    (nt pk : String) (prefs : List String) (p : ℚ) (seen : List String) :
    ∀ r ∈ (searchChildrenEndpointAndValidate api related nt 0 1 p pk prefs seen).1,
      r.nota ∈ (searchChildrenEndpointAndValidate api related nt 0 1 p pk prefs seen).2 := by
  intro r hr
  unfold searchChildrenEndpointAndValidate at hr ⊢
  rw [searchChildrenFuel] at hr ⊢
  rw [if_neg (by omega)] at hr ⊢
  rcases hkids : api.childrenSearch (baseNotaKey nt) with _ | kids
  · simp only [hkids] at hr
    exact absurd hr (List.not_mem_nil r)
  · simp only [hkids] at hr ⊢
    exact processKids_results_in_seen api related nt pk prefs p _ kids [] seen
      (fun d hd => absurd hd (List.not_mem_nil d)) r hr

theorem addUnseen_all_seen : ∀ (rs : List Cand) (acc : List Cand) (seen : List String),
    (∀ r ∈ rs, r.nota ∈ seen) → addUnseen rs (acc, seen) = (acc, seen) := by
  intro rs
  induction rs with
  | nil => intro acc seen _; rfl
  | cons r rest ih =>
    intro acc seen h
    rw [addUnseen, if_pos (h r (List.mem_cons_self r rest))]
    exact ih acc seen (fun d hd => h d (List.mem_cons_of_mem r hd))

theorem phase3Explore_acc (api : RvkApi) (related : List String) (pk : String)
    (prefs : List String) :
    ∀ (tops : List Cand) (st : List Cand × List String),
      (phase3Explore api related pk prefs tops st).1 = st.1 := by
  intro tops
  induction tops with
  | nil => intro st; rfl
  | cons top rest ih =>
    intro st
    obtain ⟨acc, seen⟩ := st
    by_cases hb : isBroadCategory top.nota = true
    · have hall := addUnseen_all_seen
        (searchChildrenEndpointAndValidate api related top.nota 0 1
          (top.relevance : ℚ) pk prefs seen).1 acc
        (searchChildrenEndpointAndValidate api related top.nota 0 1
          (top.relevance : ℚ) pk prefs seen).2
        (searchChildren_results_in_seen api related top.nota pk prefs _ seen)
      simp only [phase3Explore, if_pos hb, hall]
      rw [ih]
    · rw [phase3Explore, if_neg hb]
      exact ih (acc, seen)

theorem addUnseen_mem : ∀ (rs acc : List Cand) (seen : List String),
    ∀ r ∈ (addUnseen rs (acc, seen)).1, r ∈ acc ∨ r ∈ rs := by
  intro rs
  induction rs with
  | nil => intro acc seen r hr; exact Or.inl hr
  | cons x rest ih =>
    intro acc seen r hr
    by_cases hx : x.nota ∈ seen
    · rw [addUnseen, if_pos hx] at hr
      rcases ih acc seen r hr with h | h
      · exact Or.inl h
      · exact Or.inr (List.mem_cons_of_mem x h)
    · rw [addUnseen, if_neg hx] at hr
      rcases ih _ _ r hr with h | h
      · rcases List.mem_append.mp h with h1 | h1
        · exact Or.inl h1
        · exact Or.inr (by simpa using Or.inl (List.mem_singleton.mp h1))
      · exact Or.inr (List.mem_cons_of_mem x h)

theorem addUnseen_nodup : ∀ (rs acc : List Cand) (seen : List String),
    (acc.map Cand.nota).Nodup → (∀ r ∈ acc, r.nota ∈ seen) →
    ((addUnseen rs (acc, seen)).1.map Cand.nota).Nodup := by
  intro rs
  induction rs with
  | nil => intro acc seen hnd _; exact hnd
  | cons x rest ih =>
    intro acc seen hnd hsub
    by_cases hx : x.nota ∈ seen
    · rw [addUnseen, if_pos hx]
      exact ih acc seen hnd hsub
    · rw [addUnseen, if_neg hx]
      refine ih _ _ ?_ ?_
      · rw [List.map_append]
        refine List.nodup_append.mpr ⟨hnd, by simp, ?_⟩
        intro a ha
        obtain ⟨e, he, rfl⟩ := List.mem_map.mp ha
        simp only [List.map_cons, List.map_nil, List.mem_cons, List.not_mem_nil, or_false]
        intro hcon
        exact hx (hcon ▸ hsub e he)
      · intro r hr
        rcases List.mem_append.mp hr with h1 | h1
        · exact List.mem_append_left _ (hsub r h1)
        · rw [List.mem_singleton.mp h1]
          exact List.mem_append_right _ (by simp)

theorem rescoreCandidate_nota (api : RvkApi) (related priorityHG prefs : List String)
    (pk : String) (c : Cand) :
    (rescoreCandidate api related priorityHG prefs pk c).nota = c.nota := rfl

theorem rescoreCandidate_ctype (api : RvkApi) (related priorityHG prefs : List String)
    (pk : String) (c : Cand) :
    (rescoreCandidate api related priorityHG prefs pk c).combinationType =
      some (c.combinationType.getD "hierarchical_priority") := rfl

theorem rawNodeSuggestions_ctype (api : RvkApi) (terms : List String)
    (ps : Option (List String)) :
    ∀ c ∈ rawNodeSuggestions api terms ps, c.combinationType = none := by
  intro c hc
  simp only [rawNodeSuggestions] at hc
  obtain ⟨term, -, hc⟩ := List.mem_flatMap.mp hc
  by_cases hterm : stripStr term = ""
  · rw [if_pos hterm] at hc; exact absurd hc (List.not_mem_nil c)
  · rw [if_neg hterm] at hc
    rcases hnode : api.nodesSearch term with _ | nodes
    · rw [hnode] at hc; exact absurd hc (List.not_mem_nil c)
    · rw [hnode] at hc
      obtain ⟨nb, -, heq⟩ := List.mem_filterMap.mp hc
      by_cases hempty : nb.1 = "" ∨ nb.2 = ""
      · rw [if_pos hempty] at heq; exact absurd heq (by simp)
      · rw [if_neg hempty] at heq
        rcases hcl : cleanPrefixList ps with _ | cl
        · rw [hcl] at heq
          have heq2 : some (mkNodeSuggestion term nb.1 nb.2 false) = some c := heq
          have hc' : mkNodeSuggestion term nb.1 nb.2 false = c := by simpa using heq2
          rw [← hc']; rfl
        · rw [hcl] at heq
          have heq2 : (if matchesCleanList cl nb.1 = true then
              some (mkNodeSuggestion term nb.1 nb.2 true) else none) = some c := heq
          by_cases hm : matchesCleanList cl nb.1 = true
          · rw [if_pos hm] at heq2
            have hc' : mkNodeSuggestion term nb.1 nb.2 true = c := by simpa using heq2
            rw [← hc']; rfl
          · rw [if_neg hm] at heq2; exact absurd heq2 (by simp)

/-- C2: every entry returned by `search_with_hierarchical_priority_logic`
originates from the Phase-2 node search: its combination type is
`hierarchical_priority` (never `child_exploration`), because the child
explorer adds every discovered child to the shared seen set before returning
it and the caller discards children whose code is in that very set. -/
theorem searchPriority_no_child_results (api : RvkApi) (ai : AiAnalysis) (combos : Combos) :
    ∀ c ∈ searchWithHierarchicalPriorityLogic api ai combos,
      c.combinationType = some "hierarchical_priority" ∧
      c.nota ∈ (phase2InitialResults api ai combos).map Cand.nota := by
  intro c hc
  simp only [searchWithHierarchicalPriorityLogic] at hc
  have hc1 := List.mem_of_mem_take hc
  have hc2 := ((stableSortBy_perm _ _).mem_iff).mp hc1
  obtain ⟨d, hd, hdc⟩ := List.mem_map.mp hc2
  rw [phase3Explore_acc] at hd
  have hdinit : d ∈ phase2InitialResults api ai combos := by
    rcases addUnseen_mem _ [] [] d hd with h | h
    · exact absurd h (List.not_mem_nil d)
    · exact h
  have hdraw : d ∈ rawNodeSuggestions api
      (phase2Terms ai (phase1Signals ai combos).1 (phase1Signals ai combos).2) none := by
    rcases foldl_insert_mem _ [] d hdinit with h | h
    · exact absurd h (List.not_mem_nil d)
    · exact h
  have hdct : d.combinationType = none := rawNodeSuggestions_ctype api _ none d hdraw
  constructor
  · rw [← hdc, rescoreCandidate_ctype, hdct]
    rfl
  · rw [← hdc, rescoreCandidate_nota]
    exact List.mem_map_of_mem _ hdinit

def apiScenarioC2 : RvkApi :=
  { nodesSearch := fun t => if t = "gesellschaft" then some [("MN 1000", "Soziologie")] else some [],
    childrenSearch := fun _ => some [],
    ancestorsSearch := fun _ => none,
    nodeValidate := fun _ => none }

def headScenarioC2 : Cand :=
  (searchWithHierarchicalPriorityLogic apiScenarioC2 {} {}).headD default

/-- C2 witness: the concrete single-result pipeline returns a Phase-2 entry. -/
theorem searchPriority_no_child_results_witness :
    headScenarioC2.combinationType = some "hierarchical_priority" ∧
    headScenarioC2.nota ∈ (phase2InitialResults apiScenarioC2 {} {}).map Cand.nota :=
  searchPriority_no_child_results apiScenarioC2 {} {} headScenarioC2 (by decide)

/-- C6: the final candidate list of one request contains no two entries with
the same surface code. -/
theorem searchPriority_nodup_nota (api : RvkApi) (ai : AiAnalysis) (combos : Combos) :
    ((searchWithHierarchicalPriorityLogic api ai combos).map Cand.nota).Nodup := by
  simp only [searchWithHierarchicalPriorityLogic]
  have h0 : ((addUnseen (phase2InitialResults api ai combos) ([], [])).1.map Cand.nota).Nodup :=
    addUnseen_nodup _ [] [] (by simp) (by simp)
  have h1 : (((phase3Explore api ai.relatedGermanConcepts (phase1Signals ai combos).1
      (phase1Signals ai combos).2
      ((stableSortBy (fun a b => b.relevance ≤ a.relevance)
        (phase2InitialResults api ai combos)).take 5)
      (addUnseen (phase2InitialResults api ai combos) ([], []))).1).map Cand.nota).Nodup := by
    rw [phase3Explore_acc]
    exact h0
  have h2 : ∀ (l : List Cand),
      ((l.map (rescoreCandidate api ai.relatedGermanConcepts (priorityHauptgruppenOf combos)
        (phase1Signals ai combos).2 (phase1Signals ai combos).1)).map Cand.nota) =
      l.map Cand.nota := by
    intro l
    rw [List.map_map]
    exact List.map_congr_left (fun d _ => rescoreCandidate_nota api _ _ _ _ d)
  rw [List.map_take]
  refine List.Nodup.sublist (List.take_sublist 12 _) ?_
  refine ((stableSortBy_perm _ _).map Cand.nota).symm.nodup ?_
  rw [h2]
  exact h1

/-! ## C4: the Phase-4 scoring formula as the claim words it -/

/-- An ordered regional scan that yields the score directly: first matching
region at index `i` scores `base i`, plus +40 when the region is in the
regional preferences, +10 otherwise. -/
def regionalScoreSpecAux (base : ℕ → ℚ) (ptext : String) (prefs : List String) :
    ℕ → List String → ℚ
  | _, [] => 0
  | i, region :: rest =>
    if regionMatchesText ptext region then
      if region ∈ prefs then base i + 40 else base i + 10
    else regionalScoreSpecAux base ptext prefs (i + 1) rest

/-- The regional score exactly as claim C4 words it: the same ordered scan as
Phase-3 child scoring (the four-region chain), with base `50 - 5*i`. -/
def regionalScoreClaimC4 (ptext : String) (prefs : List String) : ℚ :=
  regionalScoreSpecAux (fun i => 50 - 5 * (i : ℚ)) ptext prefs 0 childRegionalChain

/-- The amended regional score: the Phase-4 chain of all fourteen regions,
with base `50 - 2*i`. -/
def regionalScoreAmendedC4 (ptext : String) (prefs : List String) : ℚ :=
  regionalScoreSpecAux (fun i => 50 - 2 * (i : ℚ)) ptext prefs 0 regionalScoringChain

/-- The Phase-4 relevance as claim C4 describes it, parameterized by the
regional-score computation: main-group score 100/80/20, the §4.2 keyword
score, the topical penalty (×0.05 and ×0.5), the 0.3/0.25/0.45 blend with
integer truncation and clamping to [10,100], and the +15 strong-keyword
bonus. -/
def rescoreRelevanceSpec (regionalOf : String → List String → ℚ) (api : RvkApi)
    (related priorityHG prefs : List String) (pk : String) (c : Cand) : ℤ :=
  let ptext := strLower (c.benennung ++ " " ++
    strJoin " " ((getHierarchicalPath api c.nota).map PathStep.benennung))
  let firstChar : String :=
    match c.nota.data with
    | [] => ""
    | ch :: _ => String.mk [upperCh ch]
  let mainGroupScore : ℚ :=
    if firstChar ∈ priorityHG then 100
    else if firstChar ∈ (["M", "L"] : List String) then 80 else 20
  let regionalScore0 := regionalOf ptext prefs
  let keywordSc : ℕ := calculateRelevanceForDescription [pk] c.benennung
  let matched : Bool := containsStr (strLower c.benennung) (strLower pk) ||
    related.any (fun rc => containsStr ptext (strLower rc))
  let regionalScore := if matched then regionalScore0 else regionalScore0 * (5 / 100)
  let mainGroup := if matched then mainGroupScore else mainGroupScore * (1 / 2)
  let clamped : ℤ := max 10 (min 100 (pyInt
    (mainGroup * (3 / 10) + regionalScore * (25 / 100) + (keywordSc : ℚ) * (45 / 100))))
  if keywordSc > 70 ∧ matched then min 100 (clamped + 15) else clamped

def apiScenarioC4 : RvkApi :=
  { nodesSearch := fun _ => some [],
    childrenSearch := fun _ => some [],
    ancestorsSearch := fun _ => none,
    nodeValidate := fun _ => none }

def candScenarioC4 : Cand := { nota := "MS 1200", benennung := "migration usa" }

/-- C4 counterexample: on a candidate whose text hits the region "usa"
(index 1 of the scan), the code scores the regional base as 50 − 2·1 = 48
(final relevance 72), while the claimed base 50 − 5·1 = 45 would give 71. -/
theorem rescoreRelevance_claimC4_counterexample :
    (rescoreCandidate apiScenarioC4 [] ["M"] ["usa"] "migration" candScenarioC4).relevance = 72 ∧
    rescoreRelevanceSpec regionalScoreClaimC4 apiScenarioC4 [] ["M"] ["usa"] "migration"
      candScenarioC4 = 71 ∧
    (rescoreCandidate apiScenarioC4 [] ["M"] ["usa"] "migration" candScenarioC4).relevance ≠
      rescoreRelevanceSpec regionalScoreClaimC4 apiScenarioC4 [] ["M"] ["usa"] "migration"
        candScenarioC4 := by
  refine ⟨by decide, by decide, by decide⟩

theorem scanAux_score (ptext : String) (prefs : List String) :
    ∀ (chain : List String) (i0 : ℕ),
      (match regionalScanAux ptext i0 chain with
       | some (i, region) =>
         if region ∈ prefs then (50 - 2 * (i : ℚ)) + 40 else (50 - 2 * (i : ℚ)) + 10
       | none => 0) =
      regionalScoreSpecAux (fun i => 50 - 2 * (i : ℚ)) ptext prefs i0 chain := by
  intro chain
  induction chain with
  | nil => intro i0; rfl
  | cons region rest ih =>
    intro i0
    by_cases hm : regionMatchesText ptext region = true
    · simp only [regionalScanAux, regionalScoreSpecAux, hm, if_true]
    · simp only [regionalScanAux, regionalScoreSpecAux, hm, if_false]
      exact ih (i0 + 1)

/-- C4 amended: Phase-4 rescoring computes the main-group score (100 /
80 for "M"-"L" / 20), the §4.2 keyword score against the label, and a
regional score from an ordered scan of the full fourteen-region chain with
base `50 - 2*i` (not `50 - 5*i` over the Phase-3 chain) plus +40/+10; with
no topical match, the regional score is multiplied by 0.05 and the
main-group score by 0.5; the final relevance is the integer truncation of
`0.3*mainGroup + 0.25*regional + 0.45*keyword` clamped to [10,100], with a
further +15 (clamped) when the raw keyword score exceeds 70 and the keyword
matched. -/
theorem rescoreRelevance_amendedC4 (api : RvkApi) (related priorityHG prefs : List String)
    (pk : String) (c : Cand) :
    (rescoreCandidate api related priorityHG prefs pk c).relevance =
      rescoreRelevanceSpec regionalScoreAmendedC4 api related priorityHG prefs pk c := by
  simp only [rescoreCandidate, rescoreRelevanceSpec, regionalScoreAmendedC4]
  rw [← scanAux_score]

/-! ## The emergency fallback (main_app.py 244-277) -/

/-- The tagging applied to each emergency result (lines 258-268). -/
def emergencyTag (api : RvkApi) (r : Cand) : Cand :=
  { r with
    relevance := 25,
    combinationUsed := some "Emergency fallback",
    combinationType := some "emergency",
    reasoning := some "Emergency fallback - no combination matches found",
    hierarchicalPath := some (getHierarchicalPath api r.nota),
    pathDisplay := some (formatHierarchicalPath (getHierarchicalPath api r.nota)),
    rvkHierarchyLevel := some (determineRvkHierarchyLevel r.nota),
    hauptgruppeMatch := some false }

def emergencyTerms : List String := ["gesellschaft", "wissenschaft", "forschung"]

/-- The suggestion assembly of `analyze_pica_data_with_rvk_hierarchy`:
combination extraction, the hierarchical priority search, the emergency
fallback when it yields nothing, and the `suggestions[:12]` slice of the
returned dict. -/
def analyzeSuggestions (api : RvkApi) (ai : AiAnalysis) (rvkEnabled : Bool) : List Cand :=
  let suggestions :=
    if rvkEnabled then
      let combos := extractRvkHierarchicalCombinations ai
      let sugg := searchWithHierarchicalPriorityLogic api ai combos
      if sugg = [] then
        (searchNodesEndpointAndValidate api emergencyTerms none).map (emergencyTag api)
      else sugg
    else []
  suggestions.take 12

/-- C5: if the hierarchical priority search returns zero candidates while
RVK search is enabled, the pipeline issues the node search for exactly
"gesellschaft", "wissenschaft", "forschung" and returns its results, each
with relevance exactly 25 and combination type "emergency"; the returned
list is non-empty whenever that emergency search returns any hits. -/
theorem emergency_fallback (api : RvkApi) (ai : AiAnalysis)
    (hempty : searchWithHierarchicalPriorityLogic api ai
      (extractRvkHierarchicalCombinations ai) = []) :
    (∀ c ∈ analyzeSuggestions api ai true,
        c.relevance = 25 ∧ c.combinationType = some "emergency") ∧
    (searchNodesEndpointAndValidate api emergencyTerms none ≠ [] →
        analyzeSuggestions api ai true ≠ []) := by
  have hform : analyzeSuggestions api ai true =
      ((searchNodesEndpointAndValidate api emergencyTerms none).map (emergencyTag api)).take 12 := by
    simp only [analyzeSuggestions, if_pos, hempty]
  constructor
  · intro c hc
    rw [hform] at hc
    have hc1 := List.mem_of_mem_take hc
    obtain ⟨r, -, hr⟩ := List.mem_map.mp hc1
    rw [← hr]
    exact ⟨rfl, rfl⟩
  · intro hne
    rw [hform]
    intro hcon
    rcases List.take_eq_nil_iff.mp hcon with h | h
    · cases h
    · exact hne (List.map_eq_nil_iff.mp h)

def apiScenarioC5 : RvkApi :=
  { nodesSearch := fun t =>
      if t = "gesellschaft" then some [("MN 1000", "Soziologie")] else some [],
    childrenSearch := fun _ => some [],
    ancestorsSearch := fun _ => none,
    nodeValidate := fun _ => none }

def aiScenarioC5 : AiAnalysis := { primaryKeyword := some "quark" }

/-- C5 witness: a request whose Phase 2-3 search finds nothing but whose
emergency terms return a hit yields a non-empty suggestion list. -/
theorem emergency_fallback_witness :
    analyzeSuggestions apiScenarioC5 aiScenarioC5 true ≠ [] :=
  (emergency_fallback apiScenarioC5 aiScenarioC5 (by decide)).2 (by decide)

/-- Phase-2 relevances are multiples of 5: every contribution of
`calculate_relevance_for_description` is built from 40/20/5-step summands and
5-divisible clamps, which justifies instantiating the Phase-3 monotonic floor
at parent relevances of the form `5 * k`. -/
theorem calculateRelevance_dvd_five (keywords : List String) (description : String) :
    5 ∣ calculateRelevanceForDescription keywords description := by
  unfold calculateRelevanceForDescription
  by_cases h : description = ""
  · simp only [h, if_true]
    omega
  · simp only [h, if_false]
    have h1 : 5 ∣ (keywords.map (keywordScore (stripStr (strLower description)))).sum := by
      refine List.dvd_sum ?_
      intro x hx
      obtain ⟨kw, -, rfl⟩ := List.mem_map.mp hx
      unfold keywordScore
      rcases hl : (semanticEquivalents.lookup (stripStr (strLower kw))) with _ | eqs
      · simp only [hl]
        by_cases hb : containsStr (stripStr (strLower description)) (stripStr (strLower kw)) = true
        · rw [if_pos hb]
          decide
        · rw [if_neg hb]
          decide
      · simp only [hl]
        generalize (eqs.filter
          (fun e => containsStr (stripStr (strLower description)) e)).length = n
        by_cases hb : containsStr (stripStr (strLower description)) (stripStr (strLower kw)) = true
        · rw [if_pos hb]
          exact ⟨8 + 4 * n, by ring⟩
        · rw [if_neg hb]
          exact ⟨4 * n, by ring⟩
    omega
